import Mathlib

/-!
# wann: scoring, ranking and the generational loop

A shallow embedding of `evolve.go` and `utils.go`.

* A `float64` value is a rational, an infinity or NaN (the type `float64`): arithmetic on
  numbers is exact (no rounding, no overflow) and zero has no sign; a comparison with NaN is
  false.
* Go `int` values are modelled as `Int`; slices are lists.
* A run-time panic is an `Except.error` carrying the panic message; an `error` value returned
  by `Evolve` is the `Outcome.error` constructor.
* The declaration of `Network` and the code of `NewNetwork`, `SetWeight`, `Evaluate` and
  `Complexity` are in other files of the package.  Together with the two standard-library
  behaviours the code relies on (the iteration order of `range` over a map, and `sort.Sort`)
  and the global random source, they are the fields of `Env`, over which every definition is
  parametric.
* Printing (`fmt.Println`) is not modelled, except that the labels printed by the ranking loop
  of `Evolve` are kept in `Locals.report`.
* `Modify` is parametric in `Mutators`, the methods of `Network` it calls.  Its retry loops
  need not end when `maxIterations ≤ 0`, so they carry a bound on their iterations, and `Modify`
  yields `none` when the bound is reached.
* `SpecNetwork` is the graph model as the spec describes it, for the claims that depend on what
  `InsertNode` and `AddConnection` do.
-/

namespace Wann

/-! ## Data model -/

/-- A Go `float64`: a rational number (arithmetic on numbers is exact: no rounding, no overflow,
and zero has no sign), one of the two infinities, or NaN. -/
inductive float64 where
  | num (q : ℚ)
  | posInf
  | negInf
  | nan
deriving DecidableEq

/-- The sum of two `float64`: NaN when an operand is NaN or the operands are the two opposite
infinities. -/
def float64.add : float64 → float64 → float64
  | .num a, .num b => .num (a + b)
  | .nan, _ => .nan
  | _, .nan => .nan
  | .posInf, .negInf => .nan
  | .negInf, .posInf => .nan
  | .posInf, _ => .posInf
  | _, .posInf => .posInf
  | .negInf, _ => .negInf
  | _, .negInf => .negInf

/-- The opposite of a `float64`. -/
def float64.neg : float64 → float64
  | .num a => .num (-a)
  | .posInf => .negInf
  | .negInf => .posInf
  | .nan => .nan

/-- The sign of a rational as a factor of an infinity: the infinity itself for a positive
number, the opposite one for a negative number, NaN for zero. -/
def float64.scale (inf : float64) (b : ℚ) : float64 :=
  if b = 0 then .nan else if 0 < b then inf else inf.neg

/-- The product of two `float64`: NaN when an operand is NaN or for zero times an infinity. -/
def float64.mul : float64 → float64 → float64
  | .num a, .num b => .num (a * b)
  | .nan, _ => .nan
  | _, .nan => .nan
  | .posInf, .num b => float64.scale .posInf b
  | .negInf, .num b => float64.scale .negInf b
  | .num a, .posInf => float64.scale .posInf a
  | .num a, .negInf => float64.scale .negInf a
  | .posInf, .posInf => .posInf
  | .negInf, .negInf => .posInf
  | .posInf, .negInf => .negInf
  | .negInf, .posInf => .negInf

/-- The quotient of two `float64`: a number divided by zero is an infinity, or NaN for zero
divided by zero; an infinity divided by an infinity is NaN. -/
def float64.div : float64 → float64 → float64
  | .num a, .num b =>
    if b = 0 then (if a = 0 then .nan else if 0 < a then .posInf else .negInf)
    else .num (a / b)
  | .nan, _ => .nan
  | _, .nan => .nan
  | .num _, _ => .num 0
  | .posInf, .num b => if 0 ≤ b then .posInf else .negInf
  | .negInf, .num b => if 0 ≤ b then .negInf else .posInf
  | _, _ => .nan

/-- The comparison `a < b` of Go: false whenever an operand is NaN. -/
def float64.lt : float64 → float64 → Bool
  | .num a, .num b => decide (a < b)
  | .negInf, .num _ => true
  | .negInf, .posInf => true
  | .num _, .posInf => true
  | _, _ => false

/-- The comparison `a <= b` of Go: false whenever an operand is NaN. -/
def float64.le : float64 → float64 → Bool
  | .num a, .num b => decide (a ≤ b)
  | .negInf, .num _ => true
  | .negInf, .posInf => true
  | .num _, .posInf => true
  | .negInf, .negInf => true
  | .posInf, .posInf => true
  | _, _ => false

/-- The conversion `float64(n)` of an integer. -/
def float64.ofInt (n : Int) : float64 := .num n

instance : Zero float64 := ⟨.num 0⟩
instance : One float64 := ⟨.num 1⟩
instance (n : Nat) [n.AtLeastTwo] : OfNat float64 n := ⟨.num (OfNat.ofNat n)⟩
instance : Add float64 := ⟨float64.add⟩
instance : Neg float64 := ⟨float64.neg⟩
instance : Mul float64 := ⟨float64.mul⟩
instance : Div float64 := ⟨float64.div⟩
instance : LT float64 := ⟨fun a b => float64.lt a b = true⟩
instance : LE float64 := ⟨fun a b => float64.le a b = true⟩
instance (a b : float64) : Decidable (a < b) := inferInstanceAs (Decidable (float64.lt a b = true))
instance (a b : float64) : Decidable (a ≤ b) := inferInstanceAs (Decidable (float64.le a b = true))

/-- The `Config` struct: the fields set by the driver in `cmd/gofunction/main.go`, and `Inputs`,
which `Evolve` overwrites. -/
structure Config where
  Inputs : Int
  InitialConnectionRatio : float64
  PopulationSize : Int
  Generations : Int
  Verbose : Bool
deriving DecidableEq

/-- The `NeuronIndex` type: a named Go `int` (the code converts it with `int(...)`). -/
abbrev NeuronIndex := Int

/-- The fields of `Neuron` that `checkInputNeurons` reads.  The back-pointer `neuron.Net` is not a
field here: the owning network's nodes are passed to `Neuron.checkInputNeurons` instead. -/
structure Neuron where
  neuronIndex : NeuronIndex
  InputNodes : List NeuronIndex
deriving DecidableEq

/-- The `Pair` struct of `utils.go`. -/
structure Pair where
  Key : Int
  Value : float64
deriving DecidableEq

/-- The `PairList` type: a slice of `Pair`. -/
abbrev PairList := List Pair

/-- The method `PairList.Less(i, j)`, as a comparison of the elements at the two indices:
`p[i].Value < p[j].Value`, which is false when one of the two values is NaN. -/
def PairList.Less (a b : Pair) : Bool := decide (a.Value < b.Value)

/-- The adapter `sort.Reverse`: its `Less(i, j)` is the wrapped `Less(j, i)`. -/
def Reverse (less : Pair → Pair → Bool) : Pair → Pair → Bool := fun a b => less b a

/-- A Go `map[int]float64`: its entries, with pairwise distinct keys.  The order of `entries` is
the order of insertion; it is not the order in which `range` visits them (see `Env.mapRange`). -/
structure ScoreMap where
  entries : List Pair
  nodup : (entries.map Pair.Key).Nodup
deriving DecidableEq

/-- The expression `make(map[int]float64)`. -/
def ScoreMap.empty : ScoreMap := ⟨[], List.nodup_nil⟩

/-- The expression `len(m)`. -/
def ScoreMap.len (m : ScoreMap) : Nat := m.entries.length

/-- The lookup `m[k]`, with `none` for an absent key. -/
def ScoreMap.get (m : ScoreMap) (k : Int) : Option float64 :=
  (m.entries.find? (fun p => p.Key == k)).map Pair.Value

/-- The assignment `m[k] = v`: an entry with key `k` is replaced, otherwise one is added. -/
def ScoreMap.set (m : ScoreMap) (k : Int) (v : float64) : ScoreMap :=
  ⟨m.entries.filter (fun p => p.Key != k) ++ [⟨k, v⟩], by
    rw [List.map_append, List.nodup_append]
    refine ⟨(List.filter_sublist m.entries).map Pair.Key |>.nodup m.nodup, by simp, ?_⟩
    intro a ha hb
    simp only [List.map_cons, List.map_nil, List.mem_singleton] at hb
    subst hb
    obtain ⟨p, hp, rfl⟩ := List.mem_map.1 ha
    simp at hp⟩

/-! ## The parts of the package and of the Go runtime the code calls -/

/-- The operations `evolve.go` and `utils.go` call and whose code is elsewhere, over a type `Net`
of networks and a type `G` of states of the random sources.

* `Float64` is `rand.Float64()`: a value and the next state.
* `NewNetwork` is `NewNetwork(config)`: it reads the configuration and draws random numbers.
* `AllNodes` is the field `net.AllNodes`, restricted to what `checkInputNeurons` reads.
* `SetWeight`, `Evaluate`, `Complexity` are the methods of `Network` with these names.
  Networks are values: `SetWeight` yields the updated copy (`ScorePopulation` calls it on the
  copy `net := population[i]`), and `Evaluate` and `Complexity` only read the network.
* `mapRange` is the order in which `for k, v := range m` visits the entries of a map, which the
  Go runtime picks afresh at every loop.
* `sortSort` is `sort.Sort`, given the `Less` of its argument.
* `maxLen` is the largest length for which `make([]Network, n)` does not panic (the allocation
  limit of the runtime divided by the size of a `Network`). -/
structure Env (Net G : Type) where
  Float64 : G → float64 × G
  NewNetwork : Config → G → Net × G
  AllNodes : Net → List Neuron
  SetWeight : Net → float64 → Net
  Evaluate : Net → List float64 → float64
  Complexity : Net → float64
  mapRange : ScoreMap → G → List Pair × G
  sortSort : (Pair → Pair → Bool) → PairList → PairList
  maxLen : Int

/-- What the Go language and `sort.Sort` guarantee: `range` visits every entry of the map once,
`sort.Sort` permutes its argument, and, when `Less` is an ordering of the elements, which for
`PairList.Less` is when no `Value` is NaN, after `sort.Sort(sort.Reverse(pl))` no element is
`Less` (in the reversed sense) than an element before it.  Nothing is guaranteed about the
order when a `Value` is NaN. -/
structure Env.Lawful {Net G : Type} (env : Env Net G) : Prop where
  mapRange_perm : ∀ m g, (env.mapRange m g).1.Perm m.entries
  sortSort_perm : ∀ less l, (env.sortSort less l).Perm l
  sortSort_sorted : ∀ l : PairList, (∀ p ∈ l, p.Value ≠ float64.nan) →
    (env.sortSort (Reverse PairList.Less) l).Pairwise
      (fun a b => Reverse PairList.Less b a = false)

variable {Net G : Type}

deriving instance DecidableEq for Except

/-! ## utils.go -/

/-- The function `SortByValue`: the entries of the map in the order `range` yields them, sorted
with `sort.Sort(sort.Reverse(pl))`.  The second component is the state of the random sources
after the `range` loop. -/
def SortByValue (env : Env Net G) (m : ScoreMap) (g : G) : PairList × G :=
  let (pl, g1) := env.mapRange m g
  (env.sortSort (Reverse PairList.Less) pl, g1)

/-- The loop of `Neuron.checkInputNeurons` over `neuron.InputNodes`; `n` is
`len(neuron.Net.AllNodes)`. -/
def Neuron.checkInputNeurons.loop (n : Nat) : List NeuronIndex → Except String Unit
  | [] => .ok ()
  | inputNeuronIndex :: rest =>
    if inputNeuronIndex ≥ (n : Int) then
      .error "input neuron index is pointing out of bounds"
    else Neuron.checkInputNeurons.loop n rest

/-- The method `Neuron.checkInputNeurons`; `Net` is the list `neuron.Net.AllNodes` of the network
the neuron points back to. -/
def Neuron.checkInputNeurons (neuron : Neuron) (Net : List Neuron) : Except String Unit :=
  Neuron.checkInputNeurons.loop Net.length neuron.InputNodes

/-- Modelled from the spec: the method `Network.All`, whose code is not in `evolve.go` or
`utils.go`: the neurons of the network, in index order. -/
def Network.All (env : Env Net G) (net : Net) : List Neuron := env.AllNodes net

/-- The loop of `Network.checkInputNeurons` over `net.All()`.  Each neuron's back-pointer is
taken to point to the network it is stored in (spec: "a back-reference to its owning
network"). -/
def Network.checkInputNeurons.loop (owner : List Neuron) : List Neuron → Except String Unit
  | [] => .ok ()
  | n :: rest =>
    match n.checkInputNeurons owner with
    | .error msg => .error msg
    | .ok () => Network.checkInputNeurons.loop owner rest

/-- The method `Network.checkInputNeurons`. -/
def Network.checkInputNeurons (env : Env Net G) (net : Net) : Except String Unit :=
  Network.checkInputNeurons.loop (env.AllNodes net) (Network.All env net)

/-! ## evolve.go: ScorePopulation -/

/-- The inner loop of `ScorePopulation` (lines 26-28), from pattern index `i` on, `result` being
the sum so far.  Indexing `correctOutputMultipliers[i]` past the end panics. -/
def ScorePopulation.inner (env : Env Net G) (net : Net) (correctOutputMultipliers : List float64) :
    List (List float64) → Nat → float64 → Except String float64
  | [], _, result => .ok result
  | x :: rest, i, result =>
    match correctOutputMultipliers[i]? with
    | none => .error "index out of range"
    | some c =>
      ScorePopulation.inner env net correctOutputMultipliers rest (i + 1)
        (result + env.Evaluate net x * c)

/-- The outer loop of `ScorePopulation` (lines 19-32), from population index `i` on. -/
def ScorePopulation.outer (env : Env Net G) (inputData : List (List float64))
    (correctOutputMultipliers : List float64) (w : float64) :
    List Net → Nat → ScoreMap → float64 → Except String (ScoreMap × float64)
  | [], _, scoreMap, scoreSum => .ok (scoreMap, scoreSum)
  | p :: rest, i, scoreMap, scoreSum =>
    match Network.checkInputNeurons env p with
    | .error msg => .error msg
    | .ok () =>
      let net := env.SetWeight p w
      match ScorePopulation.inner env net correctOutputMultipliers inputData 0 0 with
      | .error msg => .error msg
      | .ok result =>
        let score := result / env.Complexity net
        ScorePopulation.outer env inputData correctOutputMultipliers w rest (i + 1)
          (scoreMap.set (i : Int) score) (scoreSum + score)

/-- The value of `score` at line 29 for the network `p` under the weight `w`, when the inner
loop does not panic: the patterns paired in order with the multipliers. -/
def ScorePopulation.score (env : Env Net G) (inputData : List (List float64)) (mult : List float64) (w : float64)
    (p : Net) : float64 :=
  (List.zipWith (fun x c => env.Evaluate (env.SetWeight p w) x * c) inputData mult).sum
    / env.Complexity (env.SetWeight p w)

/-- The function `ScorePopulation`: the score map, the sum of the scores, and the state of the
random source after the one draw. -/
def ScorePopulation (env : Env Net G) (population : List Net) (inputData : List (List float64))
    (correctOutputMultipliers : List float64) (g : G) : Except String ((ScoreMap × float64) × G) :=
  let (w, g1) := env.Float64 g
  match ScorePopulation.outer env inputData correctOutputMultipliers w population 0
      ScoreMap.empty 0 with
  | .error msg => .error msg
  | .ok r => .ok (r, g1)

/-! ## evolve.go: Evolve -/

/-- How a call of `Evolve` ends: `return bestNetwork, nil`, `return nil, errors.New(msg)`, or a
run-time panic. -/
inductive Outcome (Net : Type) where
  | network (net : Net)
  | error (msg : String)
  | panic (msg : String)
deriving DecidableEq

/-- The variables of `Evolve`: the `Config` the receiver points to, the parameter
`correctOutputMultipliers`, the locals declared at lines 58-80, and the locals of the loop body
as the last generation left them.  `bestNetwork` is the position the pointer
`&(population[k])` points to.  `report` is what the ranking loop (lines 149-159) prints: for each
entry of `scoreList`, whether it was labelled `BEST THIRD`. -/
structure Locals (Net G : Type) where
  config : Config
  correctOutputMultipliers : List float64
  population : List Net
  rng : G
  bestNetwork : Option Nat
  bestScore : float64
  lastBestScore : float64
  noImprovementOfBestScoreCounter : Int
  averageScore : float64
  lastAverageScore : float64
  noImprovementOfAverageScoreCounter : Int
  worstScore : float64
  lastWorstScore : float64
  noImprovementOfWorstScoreCounter : Int
  scoreMap : ScoreMap
  scoreList : PairList
  report : List (Bool × Pair)
deriving DecidableEq

/-- The state on entry to `Evolve`: nothing created, every local at its zero value. -/
def Locals.entry (config : Config) (correctOutputMultipliers : List float64) (g : G) : Locals Net G :=
  { config := config, correctOutputMultipliers := correctOutputMultipliers, population := [],
    rng := g, bestNetwork := none, bestScore := 0, lastBestScore := 0,
    noImprovementOfBestScoreCounter := 0, averageScore := 0, lastAverageScore := 0,
    noImprovementOfAverageScoreCounter := 0, worstScore := 0, lastWorstScore := 0,
    noImprovementOfWorstScoreCounter := 0, scoreMap := ScoreMap.empty, scoreList := [],
    report := [] }

/-- The loop at lines 48-50, with `n` iterations left:
`correctOutputMultipliers = append(correctOutputMultipliers, -1.0)`. -/
def Evolve.fill : Nat → List float64 → List float64
  | 0, correctOutputMultipliers => correctOutputMultipliers
  | n + 1, correctOutputMultipliers => Evolve.fill n (correctOutputMultipliers ++ [-1])

/-- The loop at lines 61-63, with `n` networks left to create. -/
def Evolve.populate (env : Env Net G) (config : Config) : Nat → G → List Net × G
  | 0, g => ([], g)
  | n + 1, g =>
    let (net, g1) := env.NewNetwork config g
    let (rest, g2) := Evolve.populate env config n g1
    (net :: rest, g2)

/-- The ranking loop at lines 146-159: each entry of `scoreList` with its label, `true` for
`BEST THIRD` and `false` for `WORST TWO THIRDS`. -/
def Evolve.rank : Nat → PairList → List (Bool × Pair)
  | _, [] => []
  | bestThirdCountdown, p :: rest =>
    if bestThirdCountdown > 0 then (true, p) :: Evolve.rank (bestThirdCountdown - 1) rest
    else (false, p) :: Evolve.rank bestThirdCountdown rest

/-- Lines 40-80 of `Evolve`: validation of the arguments, the auto-fill of the multipliers, the
write to `config.Inputs` and the creation of the population.  An early `return` or a panic is
the `Except.error` case, with the state at that point.  `make([]Network, n)` panics when `n` is
negative or above `env.maxLen`; running out of memory below that limit is not modelled. -/
def Evolve.setup (env : Env Net G) (config : Config) (inputData : List (List float64))
    (correctOutputMultipliers : List float64) (g : G) :
    Except (Outcome Net × Locals Net G) (Locals Net G) :=
  let s : Locals Net G := Locals.entry config correctOutputMultipliers g
  let inputLength := inputData.length
  match inputData with
  | [] => .error (.error "no input data", s)
  | first :: _ =>
    let validated : Except String (List float64) :=
      if correctOutputMultipliers.length = 1 ∧ inputLength ≠ 1 then
        .ok (Evolve.fill (inputLength - 1) correctOutputMultipliers)
      else if inputLength ≠ correctOutputMultipliers.length then
        .error "the length of the input data and the slice of output multipliers differs"
      else .ok correctOutputMultipliers
    match validated with
    | .error msg => .error (.error msg, s)
    | .ok multipliers =>
      let config1 : Config := { config with Inputs := (first.length : Int) }
      let s1 : Locals Net G :=
        { s with config := config1, correctOutputMultipliers := multipliers }
      if config1.PopulationSize < 0 ∨ env.maxLen < config1.PopulationSize then
        .error (.panic "makeslice: len out of range", s1)
      else
        let (population, g1) :=
          Evolve.populate env config1 config1.PopulationSize.toNat g
        .ok { s1 with population := population, rng := g1 }

/-- The body of the generation loop (lines 85-174).  A panic is the `Except.error` case. -/
def Evolve.generation (env : Env Net G) (inputData : List (List float64)) (s : Locals Net G) :
    Except String (Locals Net G) :=
  let bestNetwork : Option Nat := none
  let bestScore : float64 := -9999
  let averageScore : float64 := 0
  let worstScore : float64 := 9999
  match ScorePopulation env s.population inputData s.correctOutputMultipliers s.rng with
  | .error msg => .error msg
  | .ok ((scoreMap, scoreSum), g1) =>
    let (scoreList, g2) := SortByValue env scoreMap g1
    let lastBestScore := bestScore
    match scoreList[0]? with
    | none => .error "index out of range"
    | some top =>
      let best : Except String (float64 × Option Nat) :=
        if top.Value > bestScore then
          if 0 ≤ top.Key ∧ top.Key.toNat < s.population.length then
            .ok (top.Value, some top.Key.toNat)
          else .error "index out of range"
        else .ok (bestScore, bestNetwork)
      match best with
      | .error msg => .error msg
      | .ok (bestScore, bestNetwork) =>
        let noImprovementOfBestScoreCounter :=
          if bestScore ≥ lastBestScore then s.noImprovementOfBestScoreCounter + 1 else 0
        let lastAverageScore := averageScore
        let averageScore := scoreSum / float64.ofInt s.config.PopulationSize
        let noImprovementOfAverageScoreCounter :=
          if averageScore ≥ lastAverageScore then s.noImprovementOfAverageScoreCounter + 1
          else 0
        let lastWorstScore := worstScore
        match scoreList[scoreList.length - 1]? with
        | none => .error "index out of range"
        | some bottom =>
          let worstScore := if bottom.Value < worstScore then bottom.Value else worstScore
          let noImprovementOfWorstScoreCounter :=
            if worstScore ≥ lastWorstScore then s.noImprovementOfWorstScoreCounter + 1 else 0
          match bestNetwork with
          | none => .error "implementation error: no best network"
          | some k =>
            let bestThirdCountdown := s.population.length / 3
            .ok { s with
              rng := g2, bestNetwork := some k,
              bestScore := bestScore, lastBestScore := lastBestScore,
              noImprovementOfBestScoreCounter := noImprovementOfBestScoreCounter,
              averageScore := averageScore, lastAverageScore := lastAverageScore,
              noImprovementOfAverageScoreCounter := noImprovementOfAverageScoreCounter,
              worstScore := worstScore, lastWorstScore := lastWorstScore,
              noImprovementOfWorstScoreCounter := noImprovementOfWorstScoreCounter,
              scoreMap := scoreMap, scoreList := scoreList,
              report := Evolve.rank bestThirdCountdown scoreList }

/-- The generation loop (line 83) with `n` generations left: the panic message, if a generation
panicked, and the state reached (for a panic, the state at the start of that generation). -/
def Evolve.loop (env : Env Net G) (inputData : List (List float64)) :
    Nat → Locals Net G → Option String × Locals Net G
  | 0, s => (none, s)
  | n + 1, s =>
    match Evolve.generation env inputData s with
    | .error msg => (some msg, s)
    | .ok s1 => Evolve.loop env inputData n s1

/-- The method `Config.Evolve`: how the call ends, and the state it ends in (of which the
caller sees `config`). -/
def Evolve (env : Env Net G) (config : Config) (inputData : List (List float64))
    (correctOutputMultipliers : List float64) (g : G) : Outcome Net × Locals Net G :=
  match Evolve.setup env config inputData correctOutputMultipliers g with
  | .error r => r
  | .ok s0 =>
    match Evolve.loop env inputData s0.config.Generations.toNat s0 with
    | (some msg, s) => (.panic msg, s)
    | (none, s) =>
      match s.bestNetwork with
      | none => (.error "the best network is nil", s)
      | some k =>
        match s.population[k]? with
        | none => (.panic "invalid memory address or nil pointer dereference", s)
        | some net => (.network net, s)

/-! ## A concrete environment, for the examples -/

/-- A small network type for the examples: the nodes and the shared weight. -/
structure Example.Network where
  AllNodes : List Neuron
  Weight : float64
deriving DecidableEq

/-- The inner loop of the insertion sort of the Go library, `for j := i; j > a &&
data.Less(j, j-1); j-- { data.Swap(j, j-1) }`: the element `x` at index `i` moves left past
every element it is `less` than.  The sorted part left of `x` is given last element first. -/
def Example.insertRev (less : Pair → Pair → Bool) (x : Pair) : List Pair → List Pair
  | [] => [x]
  | y :: rev => if less x y then y :: Example.insertRev less x rev else x :: y :: rev

/-- The insertion sort of the Go library, which is what `sort.Sort` does on a slice of at most
12 elements: each element in turn is inserted into the part left of it. -/
def Example.insertionSort (less : Pair → Pair → Bool) (l : PairList) : PairList :=
  (l.foldl (fun rev x => Example.insertRev less x rev) []).reverse

/-- An environment for the examples.  The random state is a counter `g`.  `rand.Float64()` is
`(g mod 4) / 4`.  A new network has `config.Inputs` input neurons and an output neuron fed by
the inputs `i` with `i + g` even; it evaluates to the weight times the sum of the inputs that
feed the output; its complexity is its number of nodes and edges.  `range` over a map starts at
slot `g` and wraps around; `sort.Sort` is the insertion sort of the library; `make` accepts
lengths up to `2^48`. -/
def Example.env : Env Example.Network Nat where
  Float64 := fun g => (float64.ofInt ((g % 4 : Nat) : Int) / 4, g + 1)
  NewNetwork := fun config g =>
    let n := config.Inputs.toNat
    (⟨(List.range n).map (fun i => ⟨(i : Int), []⟩) ++
        [⟨(n : Int), ((List.range n).filter (fun i => (i + g) % 2 = 0)).map
          (fun i => (i : Int))⟩], 0⟩, g + 1)
  AllNodes := fun net => net.AllNodes
  SetWeight := fun net w => { net with Weight := w }
  Evaluate := fun net x =>
    net.Weight * ((net.AllNodes.getLastD ⟨0, []⟩).InputNodes.map (fun i => x.getD i.toNat 0)).sum
  Complexity := fun net =>
    float64.ofInt
      ((net.AllNodes.length + (net.AllNodes.map (fun n => n.InputNodes.length)).sum : Nat) : Int)
  mapRange := fun m g => (m.entries.rotate g, g + 1)
  sortSort := Example.insertionSort
  maxLen := 281474976710656

/-- A configuration for the examples: 3 networks, 2 generations. -/
def Example.config : Config :=
  { Inputs := 0, InitialConnectionRatio := 1 / 2, PopulationSize := 3, Generations := 2,
    Verbose := false }

/-- A score map with a tie: `{0: 1, 1: 1, 2: 3}`. -/
def Example.tie : ScoreMap := ((ScoreMap.empty.set 0 1).set 1 1).set 2 3

/-- A score map with a NaN: `{0: 3/20, 1: NaN, 2: 3/10}`. -/
def Example.nanMap : ScoreMap :=
  ((ScoreMap.empty.set 0 (3 / 20)).set 1 float64.nan).set 2 (3 / 10)

/-- A score map without a tie: `{0: 1, 1: 2, 2: 3}`. -/
def Example.distinct : ScoreMap := ((ScoreMap.empty.set 0 1).set 1 2).set 2 3

/-- A configuration for the examples with no generation to run. -/
def Example.configNoGeneration : Config := { Example.config with Generations := 0 }

/-- The score of one network as the spec words it (4.3): the sum over the patterns `k` of
`Evaluate(inputData[k]) * multipliers[k]`, the network carrying the weight `w`, divided by its
`Complexity()`.  It is the specification `ScorePopulation` is compared with. -/
def specScore (env : Env Net G) (inputData : List (List float64)) (multipliers : List float64) (w : float64)
    (net : Net) : float64 :=
  ((List.range inputData.length).map (fun k =>
      env.Evaluate (env.SetWeight net w) (inputData.getD k []) * multipliers.getD k 0)).sum
    / env.Complexity (env.SetWeight net w)

/-- A network with one neuron, whose input index 5 points at no neuron. -/
def Example.dangling : Example.Network := ⟨[⟨0, [5]⟩], 0⟩

/-- Two patterns of three inputs, for the examples. -/
def Example.inputData : List (List float64) := [[1, 2, 5], [3, 4, 1]]

/-- The state of the example run of `Evolve` (configuration `Example.config`, patterns
`Example.inputData`, multipliers `[1]`, random state 0) after `j` generations. -/
def Example.stateAfter (j : Nat) : Locals Example.Network Nat :=
  match Evolve.setup Example.env Example.config Example.inputData [1] 0 with
  | .ok s0 => (Evolve.loop Example.env Example.inputData j s0).2
  | .error r => r.2

/-- An environment in which `NewNetwork` returns the numbers 0, 1, 2, ... and the network `k`
evaluates a pattern to the quotient of its inputs `k` and `k + 3`.  Every complexity is 1, the
weight is 0 and plays no role, `range` visits a map in the order of insertion, `sort.Sort` is
the insertion sort of the library. -/
def Example.quotientEnv : Env Nat Nat where
  Float64 := fun g => (0, g + 1)
  NewNetwork := fun _ g => (g, g + 1)
  AllNodes := fun _ => []
  SetWeight := fun net _ => net
  Evaluate := fun net x => x.getD net 0 / x.getD (net + 3) 0
  Complexity := fun _ => 1
  mapRange := fun m g => (m.entries, g)
  sortSort := Example.insertionSort
  maxLen := 281474976710656

/-- The example configuration with one generation. -/
def Example.configOneGeneration : Config := { Example.config with Generations := 1 }

/-- One pattern of six inputs: the quotients of the inputs 0 and 3, 1 and 4, 2 and 5 are
`3/20`, zero by zero, and `3/10`. -/
def Example.quotientData : List (List float64) := [[3 / 20, 0, 3 / 10, 1, 0, 1]]

/-- The example configuration with three generations. -/
def Example.configThreeGenerations : Config := { Example.config with Generations := 3 }

/-- A configuration with one network and one generation. -/
def Example.configOneNetwork : Config :=
  { Example.config with PopulationSize := 1, Generations := 1 }

/-- A configuration with a negative population size and no generation to run. -/
def Example.configNegativeSize : Config :=
  { Example.config with PopulationSize := -1, Generations := 0 }

/-- A configuration with a population size of `2^62`, above what `make` accepts, and no
generation to run. -/
def Example.configHugeSize : Config :=
  { Example.config with PopulationSize := 4611686018427387904, Generations := 0 }

/-- A network with one neuron, whose input index is negative. -/
def Example.negativeIndex : Example.Network := ⟨[⟨0, [-1]⟩], 0⟩

/-! ## evolve.go: Modify -/

/-- The methods of `Network` that `Modify` calls and whose code is elsewhere, with the random
source, over a type `Net` of networks and a type `G` of states of the random source.

* `Intn` is `rand.Intn(n)`.
* `GetRandomNode`, `GetRandomInputNode` read the network and draw an index.
* `NewNeuron` adds a neuron to the network and returns its index.
* `InsertNode` and `AddConnection` return the network after the call and the `error` value
  (`none` for `nil`).
* `OutputNode` and `AllNodes` are the fields of these names. -/
structure Mutators (Net G : Type) where
  Intn : Nat → G → Nat × G
  GetRandomNode : Net → G → NeuronIndex × G
  GetRandomInputNode : Net → G → NeuronIndex × G
  NewNeuron : Net → G → (Net × NeuronIndex) × G
  InsertNode : Net → NeuronIndex → NeuronIndex → NeuronIndex → Net × Option String
  AddConnection : Net → NeuronIndex → NeuronIndex → Net × Option String
  RandomizeActivationFunctionForRandomNeuron : Net → G → Net × G
  OutputNode : Net → NeuronIndex
  AllNodes : Net → List Neuron

/-- One call of `InsertNode` or `AddConnection` made by `Modify`: the two node indices and the
`error` value returned. -/
structure Attempt where
  nodeA : NeuronIndex
  nodeB : NeuronIndex
  err : Option String
deriving DecidableEq

/-- The variables of the retry loops of `Modify`, and the record of the calls of `InsertNode`
or `AddConnection` made so far on sampled pairs (the record is not a variable of the code). -/
structure Modify.State (Net G : Type) where
  net : Net
  rng : G
  counter : Int
  attempts : List Attempt
deriving DecidableEq

/-- What a call of `Modify` leaves: the network, the state of the random source, the method
drawn, the index `NewNeuron` returned (insert-node only), the calls made on sampled pairs, and
the last-ditch call of `InsertNode` on an input node and the output node, if it was made. -/
structure Modified (Net G : Type) where
  net : Net
  rng : G
  method : Nat
  newNodeIndex : Option NeuronIndex
  attempts : List Attempt
  fallback : Option Attempt
deriving DecidableEq

/-- The loop `for err != nil` of the insert-node method (lines 221-243), `err` being the result
of the previous call of `InsertNode`.  The first argument bounds the number of iterations; the
result is `none` when the bound is reached before the loop ends. -/
def Modify.insertLoop (ops : Mutators Net G) (maxIterations : Int) (newNodeIndex : NeuronIndex) :
    Nat → Option String → Modify.State Net G → Option (Modify.State Net G × Option Attempt)
  | _, none, st => some (st, none)
  | 0, some _, _ => none
  | fuel + 1, some _, st =>
    let (nodeA, g1) := ops.GetRandomNode st.net st.rng
    let (nodeB, g2) := ops.GetRandomNode st.net g1
    let counter := st.counter + 1
    if maxIterations > 0 ∧ counter > maxIterations then
      let (input, g3) := ops.GetRandomInputNode st.net g2
      let output := ops.OutputNode st.net
      let (net1, err1) := ops.InsertNode st.net input output newNodeIndex
      some ({ net := net1, rng := g3, counter := counter, attempts := st.attempts },
        some ⟨input, output, err1⟩)
    else
      let (net1, err1) := ops.InsertNode st.net nodeA nodeB newNodeIndex
      Modify.insertLoop ops maxIterations newNodeIndex fuel err1
        { net := net1, rng := g2, counter := counter,
          attempts := st.attempts ++ [⟨nodeA, nodeB, err1⟩] }

/-- The loop `for net.AddConnection(nodeA, nodeB) != nil` of the add-connection method
(lines 256-263).  The first argument bounds the number of calls of `AddConnection`; the result
is `none` when the bound is reached before the loop ends. -/
def Modify.connectLoop (ops : Mutators Net G) (maxIterations : Int) :
    Nat → NeuronIndex → NeuronIndex → Modify.State Net G → Option (Modify.State Net G)
  | 0, _, _, _ => none
  | fuel + 1, nodeA, nodeB, st =>
    let (net1, err) := ops.AddConnection st.net nodeA nodeB
    let attempts := st.attempts ++ [⟨nodeA, nodeB, err⟩]
    match err with
    | none => some { st with net := net1, attempts := attempts }
    | some _ =>
      let (nodeA1, g1) := ops.GetRandomNode net1 st.rng
      let (nodeB1, g2) := ops.GetRandomNode net1 g1
      let counter := st.counter + 1
      if maxIterations > 0 ∧ counter > maxIterations then
        some { net := net1, rng := g2, counter := counter, attempts := attempts }
      else
        Modify.connectLoop ops maxIterations fuel nodeA1 nodeB1
          { net := net1, rng := g2, counter := counter, attempts := attempts }

/-- The method `Network.Modify`.  `fuel` bounds the iterations of the retry loops: the result is
`none` when a loop does not end within the bound, `some (.error msg)` for a panic, and
`some (.ok m)` when `Modify` returns.  Line 217 indexes `net.AllNodes[net.OutputNode]`, which
panics when the index is out of range; the value of `InputNeuronsAreGood()` is not used. -/
def Modify (ops : Mutators Net G) (maxIterations : Int) (fuel : Nat) (net : Net) (g : G) :
    Option (Except String (Modified Net G)) :=
  let (method, g0) := ops.Intn 3 g
  match method with
  | 0 =>
    let (nodeA, g1) := ops.GetRandomNode net g0
    let (nodeB, g2) := ops.GetRandomNode net g1
    let ((net1, newNodeIndex), g3) := ops.NewNeuron net g2
    let (net2, err) := ops.InsertNode net1 nodeA nodeB newNodeIndex
    if 0 ≤ ops.OutputNode net2 ∧ (ops.OutputNode net2).toNat < (ops.AllNodes net2).length then
      match Modify.insertLoop ops maxIterations newNodeIndex fuel err
          { net := net2, rng := g3, counter := 0, attempts := [⟨nodeA, nodeB, err⟩] } with
      | none => none
      | some (st, fallback) =>
        some (.ok { net := st.net, rng := st.rng, method := 0,
                    newNodeIndex := some newNodeIndex, attempts := st.attempts,
                    fallback := fallback })
    else some (.error "index out of range")
  | 1 =>
    let (nodeA, g1) := ops.GetRandomNode net g0
    let (nodeB, g2) := ops.GetRandomNode net g1
    match Modify.connectLoop ops maxIterations fuel nodeA nodeB
        { net := net, rng := g2, counter := 0, attempts := [] } with
    | none => none
    | some st =>
      some (.ok { net := st.net, rng := st.rng, method := 1, newNodeIndex := none,
                  attempts := st.attempts, fallback := none })
  | 2 =>
    let (net1, g1) := ops.RandomizeActivationFunctionForRandomNeuron net g0
    some (.ok { net := net1, rng := g1, method := 2, newNodeIndex := none, attempts := [],
                fallback := none })
  | _ => some (.error ("implementation error: invalid method number: " ++ toString method))

/-! ## The graph model of the spec, for the methods `Modify` calls -/

/-- Modelled from the spec: the `Network` of the data model (section 3), whose declaration is
not in `evolve.go` or `utils.go`: the neurons, indexed from 0, the activation-function selector
of each, the number of input neurons (the first indices) and the index of the output neuron. -/
structure SpecNetwork where
  AllNodes : List Neuron
  ActivationFunctions : List Nat
  Inputs : Nat
  OutputNode : NeuronIndex
deriving DecidableEq

/-- Modelled from the spec: the random source, whose code is in the Go library: the raw values
it will deliver; `Intn(n)` takes the next one modulo `n`. -/
def SpecNetwork.Intn (n : Nat) : List Nat → Nat × List Nat
  | [] => (0, [])
  | x :: g => (x % n, g)

/-- Modelled from the spec: the size of the enumerated set of activation functions, which is
absent from `evolve.go` and `utils.go` ("identity, step, sine, gaussian, tanh, etc."); its
value plays no role. -/
def SpecNetwork.activationCount : Nat := 5

/-- Modelled from the spec: the method `GetRandomNode`, absent from `evolve.go` and `utils.go`:
"returns a uniformly chosen valid neuron index (any index)". -/
def SpecNetwork.GetRandomNode (net : SpecNetwork) (g : List Nat) : NeuronIndex × List Nat :=
  let (k, g1) := SpecNetwork.Intn net.AllNodes.length g
  ((k : Int), g1)

/-- Modelled from the spec: the method `GetRandomInputNode`, absent from `evolve.go` and
`utils.go`: "an index restricted to the reserved input range". -/
def SpecNetwork.GetRandomInputNode (net : SpecNetwork) (g : List Nat) :
    NeuronIndex × List Nat :=
  let (k, g1) := SpecNetwork.Intn net.Inputs g
  ((k : Int), g1)

/-- Modelled from the spec: the method `NewNeuron`, absent from `evolve.go` and `utils.go`:
"appends a fresh neuron with a randomly chosen activation function and no edges yet; returns
its index. Does not connect it to anything". -/
def SpecNetwork.NewNeuron (net : SpecNetwork) (g : List Nat) :
    (SpecNetwork × NeuronIndex) × List Nat :=
  let (f, g1) := SpecNetwork.Intn SpecNetwork.activationCount g
  let index : NeuronIndex := (net.AllNodes.length : Int)
  (({ net with AllNodes := net.AllNodes ++ [⟨index, []⟩],
               ActivationFunctions := net.ActivationFunctions ++ [f] }, index), g1)

/-- Modelled from the spec: whether the edge `a → b` exists, that is, whether the neuron `b`
has `a` among its input indices. -/
def SpecNetwork.hasEdge (net : SpecNetwork) (a b : NeuronIndex) : Bool :=
  net.AllNodes.any (fun node => node.neuronIndex == b && node.InputNodes.contains a)

/-- Modelled from the spec: the method `InsertNode`, absent from `evolve.go` and `utils.go`:
"requires that `b` currently has `a` as one of its input edges; rewires so that `a→newIndex`
and `newIndex→b` replace `a→b`. Fails with an error if no such edge exists". -/
def SpecNetwork.InsertNode (net : SpecNetwork) (a b newNodeIndex : NeuronIndex) :
    SpecNetwork × Option String :=
  if net.hasEdge a b then
    ({ net with AllNodes := net.AllNodes.map (fun node =>
        if node.neuronIndex = b then
          { node with InputNodes :=
              node.InputNodes.map (fun i => if i = a then newNodeIndex else i) }
        else if node.neuronIndex = newNodeIndex then
          { node with InputNodes := node.InputNodes ++ [a] }
        else node) }, none)
  else (net, some "there is no edge between the two nodes")

/-- Modelled from the spec: whether the value of the neuron `y` depends on the neuron `x`
through edges: `x` is an input of `y` or feeds an input of `y`, within `fuel` steps. -/
def SpecNetwork.feeds (net : SpecNetwork) : Nat → NeuronIndex → NeuronIndex → Bool
  | 0, _, _ => false
  | fuel + 1, x, y =>
    net.AllNodes.any (fun node => node.neuronIndex == y &&
      node.InputNodes.any (fun i => i == x || SpecNetwork.feeds net fuel x i))

/-- Modelled from the spec: the method `AddConnection`, absent from `evolve.go` and `utils.go`:
"requires `a != b`, edge `a→b` not already present, and that adding it would not create a cycle
(`a` must not be reachable from `b`); also requires `b` is not an input neuron. Fails with a
descriptive error otherwise; no partial mutation on failure". -/
def SpecNetwork.AddConnection (net : SpecNetwork) (a b : NeuronIndex) :
    SpecNetwork × Option String :=
  if a = b then (net, some "can not connect a node to itself")
  else if ¬ (0 ≤ a ∧ a < net.AllNodes.length ∧ 0 ≤ b ∧ b < net.AllNodes.length) then
    (net, some "node index out of range")
  else if b < net.Inputs then (net, some "an input node takes no input")
  else if net.hasEdge a b then (net, some "the connection already exists")
  else if net.feeds net.AllNodes.length b a then
    (net, some "the connection would create a cycle")
  else
    ({ net with AllNodes := net.AllNodes.map (fun node =>
        if node.neuronIndex = b then { node with InputNodes := node.InputNodes ++ [a] }
        else node) }, none)

/-- Modelled from the spec: the method `RandomizeActivationFunctionForRandomNeuron`, absent from
`evolve.go` and `utils.go`: "picks a random non-input neuron and reassigns its activation
function uniformly from the enumerated set; no-op error if the network has no eligible
neuron". -/
def SpecNetwork.RandomizeActivationFunctionForRandomNeuron (net : SpecNetwork)
    (g : List Nat) : SpecNetwork × List Nat :=
  if net.AllNodes.length ≤ net.Inputs then (net, g)
  else
    let (k, g1) := SpecNetwork.Intn (net.AllNodes.length - net.Inputs) g
    let (f, g2) := SpecNetwork.Intn SpecNetwork.activationCount g1
    ({ net with ActivationFunctions := net.ActivationFunctions.set (net.Inputs + k) f }, g2)

/-- The methods of the graph model of the spec, as the methods `Modify` calls. -/
def SpecNetwork.mutators : Mutators SpecNetwork (List Nat) where
  Intn := SpecNetwork.Intn
  GetRandomNode := SpecNetwork.GetRandomNode
  GetRandomInputNode := SpecNetwork.GetRandomInputNode
  NewNeuron := SpecNetwork.NewNeuron
  InsertNode := SpecNetwork.InsertNode
  AddConnection := SpecNetwork.AddConnection
  RandomizeActivationFunctionForRandomNeuron :=
    SpecNetwork.RandomizeActivationFunctionForRandomNeuron
  OutputNode := fun net => net.OutputNode
  AllNodes := fun net => net.AllNodes

/-- A network with two input neurons and an output neuron fed by the first input only. -/
def Example.sparse : SpecNetwork :=
  { AllNodes := [⟨0, []⟩, ⟨1, []⟩, ⟨2, [0]⟩], ActivationFunctions := [0, 0, 0],
    Inputs := 2, OutputNode := 2 }

/-- Random values for a run of the insert-node method on `Example.sparse` in which every
sampled pair is `(1, 2)` and the input neuron drawn for the last-ditch call is 1. -/
def Example.drawsInsert : List Nat := [0, 1, 2, 0, 1, 2, 1, 2, 1]

/-- Random values for a run of the add-connection method on `Example.sparse` in which the
sampled pairs are `(0, 0)`, then `(1, 2)`. -/
def Example.drawsConnect : List Nat := [1, 0, 0, 1, 2]

/-- Random values for a run of the add-connection method on `Example.sparse` in which every
sampled pair is `(0, 0)`. -/
def Example.drawsConnectFail : List Nat := [1, 0, 0, 0, 0, 0, 0]

/-! ## Lemmas on the generation loop -/

theorem float64.add_assoc' (a b c : float64) : a + b + c = a + (b + c) := by
  show float64.add (float64.add a b) c = float64.add a (float64.add b c)
  cases a <;> cases b <;> cases c <;> simp [float64.add, add_assoc]

theorem float64.zero_add' (a : float64) : 0 + a = a := by
  show float64.add (.num 0) a = a
  cases a <;> simp [float64.add]

theorem float64.add_zero' (a : float64) : a + 0 = a := by
  show float64.add a (.num 0) = a
  cases a <;> simp [float64.add]

theorem float64.le_of_lt' {a b : float64} (h : a < b) : a ≤ b := by
  revert h
  show float64.lt a b = true → float64.le a b = true
  cases a <;> cases b <;> simp [float64.lt, float64.le]
  exact le_of_lt

theorem float64.le_of_not_lt' {a b : float64} (ha : a ≠ .nan) (hb : b ≠ .nan) (h : ¬ a < b) :
    b ≤ a := by
  revert h
  show ¬ float64.lt a b = true → float64.le b a = true
  cases a <;> cases b <;> simp_all [float64.lt, float64.le]

theorem float64.not_lt_of_lt' {a b : float64} (h : a < b) : ¬ b < a := by
  revert h
  show float64.lt a b = true → ¬ float64.lt b a = true
  cases a <;> cases b <;> simp [float64.lt]
  exact fun h => le_of_lt h

theorem float64.lt_or_lt' {a c : float64} (y : float64) (hy : y ≠ .nan) (h : a < c) :
    a < y ∨ y < c := by
  revert h
  show float64.lt a c = true → float64.lt a y = true ∨ float64.lt y c = true
  cases a <;> cases c <;> cases y <;> simp_all [float64.lt]
  rename_i a c y
  exact fun h => (lt_or_le a y).elim Or.inl (fun hle => Or.inr (lt_of_le_of_lt hle h))

theorem float64.lt_of_le_of_ne' {a b : float64} (h : a ≤ b) (hne : a ≠ b) : a < b := by
  revert h hne
  show float64.le a b = true → a ≠ b → float64.lt a b = true
  cases a <;> cases b <;> simp [float64.lt, float64.le]
  exact fun h hne => lt_of_le_of_ne h hne

theorem float64.le_refl' {a : float64} (ha : a ≠ .nan) : a ≤ a := by
  revert ha
  show a ≠ .nan → float64.le a a = true
  cases a <;> simp [float64.le]

theorem float64.ne_nan_of_lt {a b : float64} (h : a < b) : a ≠ .nan ∧ b ≠ .nan := by
  revert h
  show float64.lt a b = true → _
  cases a <;> cases b <;> simp [float64.lt]


theorem Evolve.fill_eq (n : Nat) (l : List float64) :
    Evolve.fill n l = l ++ List.replicate n (-1) := by
  induction n generalizing l with
  | zero => simp [Evolve.fill]
  | succ n ih =>
    rw [Evolve.fill, ih, List.append_assoc, List.replicate_succ]
    rfl

/-- Running `j + k` generations is running `j` generations and then, unless one of them
panicked, `k` more: the state after `j` generations of a longer run is `Evolve.loop _ _ j`. -/
theorem Evolve.loop_add (env : Env Net G) (inputData : List (List float64)) (j k : Nat)
    (s : Locals Net G) :
    Evolve.loop env inputData (j + k) s =
      match Evolve.loop env inputData j s with
      | (none, s1) => Evolve.loop env inputData k s1
      | (some msg, s1) => (some msg, s1) := by
  induction j generalizing s with
  | zero => simp [Evolve.loop]
  | succ j ih =>
    rw [Nat.add_right_comm, Evolve.loop, Evolve.loop]
    cases Evolve.generation env inputData s with
    | error msg => rfl
    | ok s1 => exact ih s1

/-- What a generation that does not panic has done. -/
theorem Evolve.generation_ok (env : Env Net G) (inputData : List (List float64))
    (s s1 : Locals Net G) (h : Evolve.generation env inputData s = .ok s1) :
    ∃ scoreMap scoreSum g1 top,
      ScorePopulation env s.population inputData s.correctOutputMultipliers s.rng
        = .ok ((scoreMap, scoreSum), g1) ∧
      s1.scoreMap = scoreMap ∧
      s1.scoreList = (SortByValue env scoreMap g1).1 ∧
      s1.rng = (SortByValue env scoreMap g1).2 ∧
      s1.scoreList[0]? = some top ∧
      (-9999 : float64) < top.Value ∧
      0 ≤ top.Key ∧ top.Key.toNat < s.population.length ∧
      s1.bestNetwork = some top.Key.toNat ∧
      s1.bestScore = top.Value ∧
      s1.population = s.population ∧
      s1.config = s.config ∧
      s1.correctOutputMultipliers = s.correctOutputMultipliers ∧
      s1.report = Evolve.rank (s.population.length / 3) s1.scoreList := by
  unfold Evolve.generation at h
  simp only at h
  split at h
  · exact absurd h (by simp)
  · rename_i scoreMap scoreSum g1 hsp
    refine ⟨scoreMap, scoreSum, g1, ?_⟩
    split at h
    · exact absurd h (by simp)
    · rename_i top htop
      refine ⟨top, hsp, ?_⟩
      split at h
      · exact absurd h (by simp)
      · rename_i bestScore bestNetwork hbest
        split at h
        · exact absurd h (by simp)
        · split at h
          · exact absurd h (by simp)
          · rename_i k
            by_cases hv : top.Value > (-9999 : float64)
            · rw [if_pos hv] at hbest
              by_cases hk : 0 ≤ top.Key ∧ top.Key.toNat < s.population.length
              · rw [if_pos hk] at hbest
                simp only [Except.ok.injEq, Prod.mk.injEq] at hbest
                obtain ⟨hb1, hb2⟩ := hbest
                simp only [Except.ok.injEq] at h
                subst h
                simp only [Option.some.injEq] at hb2
                subst hb2
                exact ⟨rfl, rfl, rfl, htop, hv, hk.1, hk.2, rfl, hb1.symm, rfl, rfl, rfl, rfl⟩
              · rw [if_neg hk] at hbest
                exact absurd hbest (by simp)
            · rw [if_neg hv] at hbest
              simp only [Except.ok.injEq, Prod.mk.injEq] at hbest
              exact absurd hbest.2 (by simp)

/-- The generation loop leaves the configuration, the multiplier list and the population as
they were. -/
theorem Evolve.loop_frame (env : Env Net G) (inputData : List (List float64)) (n : Nat)
    (s : Locals Net G) :
    (Evolve.loop env inputData n s).2.config = s.config ∧
    (Evolve.loop env inputData n s).2.correctOutputMultipliers = s.correctOutputMultipliers ∧
    (Evolve.loop env inputData n s).2.population = s.population := by
  induction n generalizing s with
  | zero => simp [Evolve.loop]
  | succ n ih =>
    rw [Evolve.loop]
    cases hgen : Evolve.generation env inputData s with
    | error msg => simp
    | ok s1 =>
      obtain ⟨_, _, _, _, _, _, _, _, _, _, _, _, _, _, hp, hc, hm, _⟩ :=
        Evolve.generation_ok env inputData s s1 hgen
      simp only
      obtain ⟨h1, h2, h3⟩ := ih s1
      exact ⟨h1.trans hc, h2.trans hm, h3.trans hp⟩

/-- After at least one generation and no panic, `bestNetwork` points into the population. -/
theorem Evolve.loop_bestNetwork (env : Env Net G) (inputData : List (List float64)) (n : Nat)
    (s s1 : Locals Net G) (h : Evolve.loop env inputData (n + 1) s = (none, s1)) :
    ∃ k, s1.bestNetwork = some k ∧ k < s1.population.length := by
  induction n generalizing s with
  | zero =>
    rw [Evolve.loop] at h
    cases hgen : Evolve.generation env inputData s with
    | error msg => rw [hgen] at h; simp at h
    | ok s2 =>
      rw [hgen] at h
      simp only [Evolve.loop, Prod.mk.injEq, true_and] at h
      subst h
      obtain ⟨_, _, _, top, _, _, _, _, _, _, _, hlt, hb, _, hp, _⟩ :=
        Evolve.generation_ok env inputData s s2 hgen
      exact ⟨top.Key.toNat, hb, by rw [hp]; exact hlt⟩
  | succ n ih =>
    rw [Evolve.loop] at h
    cases hgen : Evolve.generation env inputData s with
    | error msg => rw [hgen] at h; simp at h
    | ok s2 =>
      rw [hgen] at h
      exact ih s2 h

/-- The three ways `Evolve` can end once the arguments are accepted and the population is
built. -/
theorem Evolve.of_setup_ok (env : Env Net G) (config : Config) (inputData : List (List float64))
    (correctOutputMultipliers : List float64) (g : G) (s0 : Locals Net G)
    (h : Evolve.setup env config inputData correctOutputMultipliers g = .ok s0) :
    (∃ msg, (Evolve env config inputData correctOutputMultipliers g).1 = .panic msg) ∨
    ((Evolve env config inputData correctOutputMultipliers g).1 = .error "the best network is nil"
      ∧ s0.config.Generations ≤ 0) ∨
    (∃ net, (Evolve env config inputData correctOutputMultipliers g).1 = .network net) := by
  unfold Evolve
  rw [h]
  simp only
  rcases hloop : Evolve.loop env inputData s0.config.Generations.toNat s0 with ⟨_ | msg, s⟩
  · simp only
    cases hn : s0.config.Generations.toNat with
    | zero =>
      rw [hn] at hloop
      simp only [Evolve.loop, Prod.mk.injEq, true_and] at hloop
      have hle : s0.config.Generations ≤ 0 := Int.toNat_eq_zero.1 hn
      cases hb : s.bestNetwork with
      | none => exact Or.inr (Or.inl ⟨rfl, hle⟩)
      | some k =>
        simp only
        cases hk : s.population[k]? with
        | none => exact Or.inl ⟨_, rfl⟩
        | some net => exact Or.inr (Or.inr ⟨net, rfl⟩)
    | succ n =>
      rw [hn] at hloop
      obtain ⟨k, hk, hlt⟩ := Evolve.loop_bestNetwork env inputData n s0 s hloop
      rw [hk]
      simp only
      rw [List.getElem?_eq_getElem hlt]
      exact Or.inr (Or.inr ⟨_, rfl⟩)
  · exact Or.inl ⟨msg, rfl⟩

/-- The result of `Evolve.setup` on a non-empty pattern set, by cases on the lengths. -/
theorem Evolve.setup_cons (env : Env Net G) (config : Config) (first : List float64)
    (rest : List (List float64)) (correctOutputMultipliers : List float64) (g : G) :
    ((correctOutputMultipliers.length ≠ (first :: rest).length ∧
        correctOutputMultipliers.length ≠ 1) ∧
      Evolve.setup env config (first :: rest) correctOutputMultipliers g =
        .error (.error "the length of the input data and the slice of output multipliers differs",
          Locals.entry config correctOutputMultipliers g)) ∨
    (¬ (correctOutputMultipliers.length ≠ (first :: rest).length ∧
        correctOutputMultipliers.length ≠ 1) ∧
      ((∃ s1 : Locals Net G,
          Evolve.setup env config (first :: rest) correctOutputMultipliers g =
            .error (.panic "makeslice: len out of range", s1) ∧
          s1.correctOutputMultipliers =
            (if correctOutputMultipliers.length = 1 ∧ (first :: rest).length ≠ 1 then
              Evolve.fill ((first :: rest).length - 1) correctOutputMultipliers
            else correctOutputMultipliers)) ∨
       (∃ s0 : Locals Net G,
          Evolve.setup env config (first :: rest) correctOutputMultipliers g = .ok s0 ∧
          s0.config = { config with Inputs := (first.length : Int) } ∧
          s0.correctOutputMultipliers =
            (if correctOutputMultipliers.length = 1 ∧ (first :: rest).length ≠ 1 then
              Evolve.fill ((first :: rest).length - 1) correctOutputMultipliers
            else correctOutputMultipliers)))) := by
  unfold Evolve.setup
  simp only
  by_cases h1 : correctOutputMultipliers.length = 1 ∧ (first :: rest).length ≠ 1
  · right
    refine ⟨fun hc => hc.2 h1.1, ?_⟩
    rw [if_pos h1]
    simp only
    by_cases hp : config.PopulationSize < 0 ∨ env.maxLen < config.PopulationSize
    · left; rw [if_pos hp]; exact ⟨_, rfl, by rw [if_pos h1]⟩
    · right; rw [if_neg hp]; exact ⟨_, rfl, rfl, by rw [if_pos h1]⟩
  · rw [if_neg h1]
    by_cases h2 : (first :: rest).length ≠ correctOutputMultipliers.length
    · left
      rw [if_pos h2]
      refine ⟨⟨fun hc => h2 hc.symm, fun hc => h1 ⟨hc, fun hn => h2 (hn.trans hc.symm)⟩⟩, rfl⟩
    · right
      rw [if_neg h2]
      refine ⟨fun hc => h2 (fun he => hc.1 he.symm), ?_⟩
      simp only
      by_cases hp : config.PopulationSize < 0 ∨ env.maxLen < config.PopulationSize
      · left; rw [if_pos hp]; exact ⟨_, rfl, by rw [if_neg h1]⟩
      · right; rw [if_neg hp]; exact ⟨_, rfl, rfl, by rw [if_neg h1]⟩

/-- Once the population is built, the state `Evolve` ends in is the state the generation loop
ends in. -/
theorem Evolve.state_of_setup_ok (env : Env Net G) (config : Config)
    (inputData : List (List float64)) (correctOutputMultipliers : List float64) (g : G)
    (s0 : Locals Net G)
    (h : Evolve.setup env config inputData correctOutputMultipliers g = .ok s0) :
    (Evolve env config inputData correctOutputMultipliers g).2 =
      (Evolve.loop env inputData s0.config.Generations.toNat s0).2 := by
  unfold Evolve
  rw [h]
  simp only
  rcases Evolve.loop env inputData s0.config.Generations.toNat s0 with ⟨_ | msg, s⟩
  · simp only
    cases s.bestNetwork with
    | none => rfl
    | some k =>
      simp only
      cases s.population[k]? <;> rfl
  · rfl

/-- The multiplier list in the state `Evolve` ends in, for a non-empty pattern set. -/
theorem Evolve.multipliers_cons (env : Env Net G) (config : Config) (first : List float64)
    (rest : List (List float64)) (correctOutputMultipliers : List float64) (g : G) :
    (Evolve env config (first :: rest) correctOutputMultipliers g).2.correctOutputMultipliers =
      (if correctOutputMultipliers.length = 1 ∧ (first :: rest).length ≠ 1 then
        Evolve.fill ((first :: rest).length - 1) correctOutputMultipliers
      else correctOutputMultipliers) := by
  rcases Evolve.setup_cons env config first rest correctOutputMultipliers g with
    ⟨hc, hs⟩ | ⟨_, ⟨s1, hs, hm⟩ | ⟨s0, hs, _, hm⟩⟩
  · have : (Evolve env config (first :: rest) correctOutputMultipliers g) =
        (.error "the length of the input data and the slice of output multipliers differs",
          Locals.entry config correctOutputMultipliers g) := by
      unfold Evolve; rw [hs]
    rw [this, if_neg (fun h => hc.2 h.1)]
    rfl
  · have : (Evolve env config (first :: rest) correctOutputMultipliers g) =
        (.panic "makeslice: len out of range", s1) := by
      unfold Evolve; rw [hs]
    rw [this]
    exact hm
  · rw [Evolve.state_of_setup_ok env config _ _ g s0 hs,
      (Evolve.loop_frame env (first :: rest) _ s0).2.1]
    exact hm

/-- With one pattern and one multiplier the multiplier list is left as given. -/
theorem Evolve_multipliers_used_aux (env : Env Net G) (config : Config) (pattern : List float64)
    (m : float64) (g : G) :
    (Evolve env config [pattern] [m] g).2.correctOutputMultipliers = [m] := by
  rw [Evolve.multipliers_cons, if_neg (fun h => h.2 rfl)]

/-! ## Input validation (C1-C4) -/

/-- C1: called with an empty `inputData`, `Evolve` returns no network and the validation error
"no input data", for every configuration and every multiplier list; it does so before any
population work: no network has been created, no random number has been drawn, and the
configuration (`config.Inputs` included) is the one it was called with. -/
theorem Evolve_empty_inputData (env : Env Net G) (config : Config)
    (correctOutputMultipliers : List float64) (g : G) :
    (Evolve env config [] correctOutputMultipliers g).1 = .error "no input data" ∧
    (Evolve env config [] correctOutputMultipliers g).2.population = [] ∧
    (Evolve env config [] correctOutputMultipliers g).2.rng = g ∧
    (Evolve env config [] correctOutputMultipliers g).2.config = config :=
  ⟨rfl, rfl, rfl, rfl⟩

/-- C2: for a non-empty `inputData` of `n` patterns and a multiplier list of length `k`,
`Evolve` returns the length-mismatch validation error if and only if `k ≠ n` and `k ≠ 1`; when
it does, no network has been created, no random number has been drawn and the configuration is
the one it was called with. -/
theorem Evolve_length_mismatch (env : Env Net G) (config : Config)
    (inputData : List (List float64)) (correctOutputMultipliers : List float64) (g : G)
    (hne : inputData ≠ []) :
    ((Evolve env config inputData correctOutputMultipliers g).1 =
        .error "the length of the input data and the slice of output multipliers differs" ↔
      (correctOutputMultipliers.length ≠ inputData.length ∧
        correctOutputMultipliers.length ≠ 1)) ∧
    ((Evolve env config inputData correctOutputMultipliers g).1 =
        .error "the length of the input data and the slice of output multipliers differs" →
      (Evolve env config inputData correctOutputMultipliers g).2.population = [] ∧
      (Evolve env config inputData correctOutputMultipliers g).2.rng = g ∧
      (Evolve env config inputData correctOutputMultipliers g).2.config = config) := by
  cases inputData with
  | nil => exact absurd rfl hne
  | cons first rest =>
    rcases Evolve.setup_cons env config first rest correctOutputMultipliers g with
      ⟨hc, hs⟩ | ⟨hc, ⟨s1, hs, _⟩ | ⟨s0, hs, _, _⟩⟩
    · have : (Evolve env config (first :: rest) correctOutputMultipliers g) =
          (.error "the length of the input data and the slice of output multipliers differs",
            Locals.entry config correctOutputMultipliers g) := by
        unfold Evolve; rw [hs]
      rw [this]
      exact ⟨⟨fun _ => hc, fun _ => rfl⟩, fun _ => ⟨rfl, rfl, rfl⟩⟩
    · have : (Evolve env config (first :: rest) correctOutputMultipliers g) =
          (.panic "makeslice: len out of range", s1) := by
        unfold Evolve; rw [hs]
      rw [this]
      have hno : (Outcome.panic "makeslice: len out of range" : Outcome Net) ≠
          .error "the length of the input data and the slice of output multipliers differs" :=
        fun h => Outcome.noConfusion h
      exact ⟨⟨fun h => absurd h hno, fun h => absurd h hc⟩, fun h => absurd h hno⟩
    · have hno : (Evolve env config (first :: rest) correctOutputMultipliers g).1 ≠
          .error "the length of the input data and the slice of output multipliers differs" := by
        rcases Evolve.of_setup_ok env config _ _ g s0 hs with
          ⟨msg, h⟩ | ⟨h, _⟩ | ⟨net, h⟩ <;> rw [h]
        · exact fun h => Outcome.noConfusion h
        · intro h
          injection h with h
          exact absurd h (by decide)
        · exact fun h => Outcome.noConfusion h
      exact ⟨⟨fun h => absurd h hno, fun h => absurd h hc⟩, fun h => absurd h hno⟩

/-- C2, at a concrete input: two patterns with three multipliers are rejected. -/
theorem Evolve_length_mismatch_witness :
    ([[1, 2], [3, 4]] : List (List float64)) ≠ [] ∧
    ((Evolve Example.env Example.config [[1, 2], [3, 4]] [1, 2, 3] 0).1 =
        .error "the length of the input data and the slice of output multipliers differs" ↔
      (([1, 2, 3] : List float64).length ≠ ([[1, 2], [3, 4]] : List (List float64)).length ∧
        ([1, 2, 3] : List float64).length ≠ 1)) :=
  ⟨by decide,
    (Evolve_length_mismatch Example.env Example.config [[1, 2], [3, 4]] [1, 2, 3] 0
      (by decide)).1⟩

/-- C3: for an `inputData` of `n ≥ 2` patterns and a one-element multiplier list `[m]`, the
multiplier list `Evolve` scores with is `[m, -1, ..., -1]`, of length exactly `n`: the given
element, then `n - 1` entries equal to `-1`.  A multiplier list whose length is `n` is used as
it is. -/
theorem Evolve_multipliers_used (env : Env Net G) (config : Config)
    (inputData : List (List float64)) (correctOutputMultipliers : List float64) (g : G) :
    (∀ m : float64, 2 ≤ inputData.length → correctOutputMultipliers = [m] →
      (Evolve env config inputData correctOutputMultipliers g).2.correctOutputMultipliers =
        m :: List.replicate (inputData.length - 1) (-1) ∧
      (Evolve env config inputData correctOutputMultipliers g).2.correctOutputMultipliers.length
        = inputData.length) ∧
    (correctOutputMultipliers.length = inputData.length →
      (Evolve env config inputData correctOutputMultipliers g).2.correctOutputMultipliers =
        correctOutputMultipliers) := by
  cases inputData with
  | nil =>
    refine ⟨fun m h => absurd h (by simp), fun _ => rfl⟩
  | cons first rest =>
    rw [Evolve.multipliers_cons]
    refine ⟨fun m hn hm => ?_, fun hl => ?_⟩
    · subst hm
      have h1 : ([m] : List float64).length = 1 ∧ (first :: rest).length ≠ 1 :=
        ⟨rfl, by omega⟩
      rw [if_pos h1, Evolve.fill_eq]
      refine ⟨rfl, ?_⟩
      simp only [List.length_append, List.length_replicate, List.length_cons, List.length_nil]
      omega
    · by_cases h1 : correctOutputMultipliers.length = 1 ∧ (first :: rest).length ≠ 1
      · exact absurd (hl.symm.trans h1.1) h1.2
      · rw [if_neg h1]

/-- C3, at concrete inputs: `[1]` for two patterns becomes `[1, -1]`, and `[1, 0]` for two
patterns stays `[1, 0]`. -/
theorem Evolve_multipliers_used_witness :
    ((Evolve Example.env Example.config [[1, 2], [3, 4]] [1] 0).2.correctOutputMultipliers =
        1 :: List.replicate (([[1, 2], [3, 4]] : List (List float64)).length - 1) (-1) ∧
      (Evolve Example.env Example.config [[1, 2], [3, 4]] [1] 0).2.correctOutputMultipliers.length
        = ([[1, 2], [3, 4]] : List (List float64)).length) ∧
    (Evolve Example.env Example.config [[1, 2], [3, 4]] [1, 0] 0).2.correctOutputMultipliers =
      [1, 0] :=
  ⟨(Evolve_multipliers_used Example.env Example.config [[1, 2], [3, 4]] [1] 0).1 1
      (by decide) rfl,
    (Evolve_multipliers_used Example.env Example.config [[1, 2], [3, 4]] [1, 0] 0).2 rfl⟩

/-- C4, as stated, fails: with `config.Generations = 0`, one pattern and one multiplier,
`Evolve` returns the error "the best network is nil". -/
theorem Evolve_single_pattern_error :
    (Evolve Example.env Example.configNoGeneration [[1, 2]] [1] 0).1 =
      .error "the best network is nil" := by
  decide!

/-- C4, amended: for one pattern and a one-element multiplier list, `Evolve` does not take the
auto-fill path (it scores with the given one-element list) and returns neither validation
error: it ends with a network, with a panic, or, when `config.Generations ≤ 0`, with the error
"the best network is nil". -/
theorem Evolve_single_pattern (env : Env Net G) (config : Config) (pattern : List float64) (m : float64)
    (g : G) :
    (Evolve env config [pattern] [m] g).2.correctOutputMultipliers = [m] ∧
    ((∃ net, (Evolve env config [pattern] [m] g).1 = .network net) ∨
      (∃ msg, (Evolve env config [pattern] [m] g).1 = .panic msg) ∨
      ((Evolve env config [pattern] [m] g).1 = .error "the best network is nil" ∧
        config.Generations ≤ 0)) := by
  refine ⟨(Evolve_multipliers_used_aux env config pattern m g), ?_⟩
  rcases Evolve.setup_cons env config pattern [] [m] g with
    ⟨hc, _⟩ | ⟨_, ⟨s1, hs, _⟩ | ⟨s0, hs, hcfg, _⟩⟩
  · exact absurd rfl hc.2
  · refine Or.inr (Or.inl ⟨"makeslice: len out of range", ?_⟩)
    unfold Evolve; rw [hs]
  · rcases Evolve.of_setup_ok env config _ _ g s0 hs with ⟨msg, h⟩ | ⟨h, hg⟩ | ⟨net, h⟩
    · exact Or.inr (Or.inl ⟨msg, h⟩)
    · refine Or.inr (Or.inr ⟨h, ?_⟩)
      rw [hcfg] at hg
      exact hg
    · exact Or.inl ⟨net, h⟩

/-! ## Ranking (C5, C6) -/

/-- The lookup `m[k]` yields `v` exactly when `Pair{k, v}` is an entry of the map. -/
theorem ScoreMap.get_eq_some_iff (m : ScoreMap) (k : Int) (v : float64) :
    m.get k = some v ↔ (⟨k, v⟩ : Pair) ∈ m.entries := by
  obtain ⟨entries, nodup⟩ := m
  simp only [ScoreMap.get]
  induction entries with
  | nil => simp
  | cons p rest ih =>
    rw [List.map_cons, List.nodup_cons] at nodup
    rw [List.find?_cons]
    by_cases hk : p.Key = k
    · have hb : (p.Key == k) = true := by simpa using hk
      rw [hb]
      simp only [Option.map_some', Option.some.injEq, List.mem_cons]
      constructor
      · intro hv
        left
        cases p
        simp only at hk hv
        rw [hk, hv]
      · rintro (h | h)
        · rw [← h]
        · exact absurd (List.mem_map.2 ⟨_, h, rfl⟩) (hk ▸ nodup.1)
    · have hb : (p.Key == k) = false := by simpa using hk
      rw [hb]
      simp only [List.mem_cons]
      rw [ih nodup.2]
      constructor
      · exact Or.inr
      · rintro (h | h)
        · exact absurd (by rw [← h]) hk
        · exact h

/-- The entries of a map are pairwise distinct. -/
theorem ScoreMap.entries_nodup (m : ScoreMap) : m.entries.Nodup :=
  List.Nodup.of_map Pair.Key m.nodup

/-- In a lawful environment the ranking is a permutation of the entries of the map. -/
theorem SortByValue_perm (env : Env Net G) (hlaw : env.Lawful) (m : ScoreMap) (g : G) :
    (SortByValue env m g).1.Perm m.entries :=
  (hlaw.sortSort_perm _ _).trans (hlaw.mapRange_perm m g)

/-- In a lawful environment the ranking of a map without NaN is in non-increasing order of
`Value`. -/
theorem SortByValue_pairwise (env : Env Net G) (hlaw : env.Lawful) (m : ScoreMap) (g : G)
    (hnan : ∀ p ∈ m.entries, p.Value ≠ float64.nan) :
    (SortByValue env m g).1.Pairwise (fun a b => b.Value ≤ a.Value) := by
  have hperm := SortByValue_perm env hlaw m g
  have hsorted := hlaw.sortSort_sorted (env.mapRange m g).1
    (fun p hp => hnan p ((hlaw.mapRange_perm m g).mem_iff.1 hp))
  refine List.Pairwise.imp_of_mem ?_ hsorted
  intro a b ha hb h
  simp only [Reverse, PairList.Less, decide_eq_false_iff_not] at h
  exact float64.le_of_not_lt' (hnan a (hperm.mem_iff.1 ha)) (hnan b (hperm.mem_iff.1 hb)) h

/-- The inner loop of the insertion sort keeps the elements. -/
theorem Example.insertRev_perm (less : Pair → Pair → Bool) (x : Pair) (rev : List Pair) :
    (Example.insertRev less x rev).Perm (x :: rev) := by
  induction rev with
  | nil => exact List.Perm.refl _
  | cons y rev ih =>
    rw [Example.insertRev]
    split
    · exact (List.Perm.cons y ih).trans (List.Perm.swap x y rev)
    · exact List.Perm.refl _

/-- The outer loop of the insertion sort keeps the elements. -/
theorem Example.foldl_insertRev_perm (less : Pair → Pair → Bool) (l acc : List Pair) :
    (l.foldl (fun rev x => Example.insertRev less x rev) acc).Perm (l ++ acc) := by
  induction l generalizing acc with
  | nil => exact List.Perm.refl _
  | cons x l ih =>
    rw [List.foldl_cons]
    refine (ih _).trans ?_
    refine ((Example.insertRev_perm less x acc).append_left l).trans ?_
    exact List.perm_middle

/-- The insertion sort permutes its argument. -/
theorem Example.insertionSort_perm (less : Pair → Pair → Bool) (l : PairList) :
    (Example.insertionSort less l).Perm l := by
  unfold Example.insertionSort
  refine (List.reverse_perm _).trans ?_
  have := Example.foldl_insertRev_perm less l []
  rwa [List.append_nil] at this

/-- The inner loop of the insertion sort keeps the part left of the element sorted, when no
`Value` is NaN. -/
theorem Example.insertRev_pairwise (x : Pair) (rev : List Pair)
    (hrev : ∀ p ∈ rev, p.Value ≠ float64.nan)
    (h : rev.Pairwise (fun a b => Reverse PairList.Less a b = false)) :
    (Example.insertRev (Reverse PairList.Less) x rev).Pairwise
      (fun a b => Reverse PairList.Less a b = false) := by
  induction rev with
  | nil => simp [Example.insertRev]
  | cons y rev ih =>
    rw [List.pairwise_cons] at h
    rw [Example.insertRev]
    by_cases hl : Reverse PairList.Less x y = true
    · rw [if_pos hl, List.pairwise_cons]
      refine ⟨?_, ih (fun p hp => hrev p (List.mem_cons_of_mem _ hp)) h.2⟩
      intro z hz
      rcases List.mem_cons.1 ((Example.insertRev_perm _ x rev).mem_iff.1 hz) with rfl | hz
      · simp only [Reverse, PairList.Less, decide_eq_true_eq] at hl
        simp only [Reverse, PairList.Less, decide_eq_false_iff_not]
        exact float64.not_lt_of_lt' hl
      · exact h.1 z hz
    · rw [if_neg hl, List.pairwise_cons]
      refine ⟨?_, List.pairwise_cons.2 h⟩
      have hl1 : Reverse PairList.Less x y = false := by simpa using hl
      intro z hz
      rcases List.mem_cons.1 hz with rfl | hz
      · exact hl1
      · have hyz := h.1 z hz
        simp only [Reverse, PairList.Less, decide_eq_false_iff_not] at hl1 hyz ⊢
        intro hzx
        rcases float64.lt_or_lt' y.Value (hrev y (List.mem_cons_self _ _)) hzx with h1 | h1
        · exact hyz h1
        · exact hl1 h1

/-- The insertion sort sorts a list in which no `Value` is NaN. -/
theorem Example.insertionSort_sorted (l : PairList)
    (hnan : ∀ p ∈ l, p.Value ≠ float64.nan) :
    (Example.insertionSort (Reverse PairList.Less) l).Pairwise
      (fun a b => Reverse PairList.Less b a = false) := by
  unfold Example.insertionSort
  rw [List.pairwise_reverse]
  have key : ∀ (l acc : List Pair), (∀ p ∈ l, p.Value ≠ float64.nan) →
      (∀ p ∈ acc, p.Value ≠ float64.nan) →
      acc.Pairwise (fun a b => Reverse PairList.Less a b = false) →
      (l.foldl (fun rev x => Example.insertRev (Reverse PairList.Less) x rev) acc).Pairwise
        (fun a b => Reverse PairList.Less a b = false) := by
    intro l
    induction l with
    | nil => intro acc _ _ h; exact h
    | cons x l ih =>
      intro acc hl hacc h
      rw [List.foldl_cons]
      refine ih _ (fun p hp => hl p (List.mem_cons_of_mem _ hp)) ?_
        (Example.insertRev_pairwise x acc hacc h)
      intro p hp
      rcases List.mem_cons.1 ((Example.insertRev_perm _ x acc).mem_iff.1 hp) with rfl | hp
      · exact hl p (List.mem_cons_self _ _)
      · exact hacc p hp
  exact key l [] hnan (by simp) List.Pairwise.nil

/-- The example environment is lawful. -/
theorem Example.env_lawful : Example.env.Lawful where
  mapRange_perm := fun m g => List.rotate_perm m.entries g
  sortSort_perm := fun less l => Example.insertionSort_perm less l
  sortSort_sorted := fun l hnan => Example.insertionSort_sorted l hnan

/-- C5, as stated, fails: for the score map `{0: 3/20, 1: NaN, 2: 3/10}`, visited by `range` in
the order 0, 1, 2, no comparison with NaN is true, the insertion sort moves nothing, and the
list returned has `3/20` before `3/10`: its `Value`s are not in non-increasing order. -/
theorem SortByValue_nan_unsorted :
    Example.env.Lawful ∧
    (SortByValue Example.env Example.nanMap 0).1 = [⟨0, 3 / 20⟩, ⟨1, float64.nan⟩, ⟨2, 3 / 10⟩] ∧
    ¬ ((3 / 20 : float64) ≥ float64.nan) ∧ ¬ ((3 / 20 : float64) ≥ 3 / 10) :=
  ⟨Example.env_lawful, by decide!, by decide!, by decide!⟩

/-- C5, amended: in an environment where `range` and `sort.Sort` keep their contracts, for every
score map `m` the list `SortByValue(m)` has length `len(m)` and contains `Pair{k, m[k]}` exactly
once for each key `k` of `m` and nothing else (it is a permutation of the entries of `m`); and
when no value of `m` is NaN its `Value`s are in non-increasing order. -/
theorem SortByValue_ranking (env : Env Net G) (hlaw : env.Lawful) (m : ScoreMap) (g : G) :
    (SortByValue env m g).1.length = m.len ∧
    (∀ k v, m.get k = some v → (SortByValue env m g).1.count ⟨k, v⟩ = 1) ∧
    (∀ p ∈ (SortByValue env m g).1, m.get p.Key = some p.Value) ∧
    (SortByValue env m g).1.Perm m.entries ∧
    ((∀ p ∈ m.entries, p.Value ≠ float64.nan) →
      (SortByValue env m g).1.Pairwise (fun a b => a.Value ≥ b.Value)) := by
  have hperm := SortByValue_perm env hlaw m g
  refine ⟨hperm.length_eq, ?_, ?_, hperm, fun hnan => SortByValue_pairwise env hlaw m g hnan⟩
  · intro k v hk
    rw [hperm.count_eq]
    exact List.count_eq_one_of_mem m.entries_nodup ((m.get_eq_some_iff k v).1 hk)
  · intro p hp
    exact (m.get_eq_some_iff p.Key p.Value).2 (hperm.mem_iff.1 hp)

/-- C5 amended, at a concrete map: `{0: 1, 1: 1, 2: 3}` is ranked with the entry of key 2
first. -/
theorem SortByValue_ranking_witness :
    (SortByValue Example.env Example.tie 0).1.length = Example.tie.len ∧
    (SortByValue Example.env Example.tie 0).1.Perm Example.tie.entries ∧
    (SortByValue Example.env Example.tie 0).1.Pairwise (fun a b => a.Value ≥ b.Value) ∧
    (SortByValue Example.env Example.tie 0).1 = [⟨2, 3⟩, ⟨0, 1⟩, ⟨1, 1⟩] :=
  ⟨(SortByValue_ranking Example.env Example.env_lawful Example.tie 0).1,
    (SortByValue_ranking Example.env Example.env_lawful Example.tie 0).2.2.2.1,
    (SortByValue_ranking Example.env Example.env_lawful Example.tie 0).2.2.2.2 (by decide!),
    by decide!⟩

/-- C6, as stated, fails: when `range` starts at the second slot of `{0: 1, 1: 1, 2: 3}`, the
entries with the equal values come out with key 1 before key 0; when it starts at the first
slot, key 0 comes before key 1.  The ranking is not a function of the scores. -/
theorem SortByValue_tie_order :
    Example.env.Lawful ∧
    (SortByValue Example.env Example.tie 1).1 = [⟨2, 3⟩, ⟨1, 1⟩, ⟨0, 1⟩] ∧
    (SortByValue Example.env Example.tie 0).1 = [⟨2, 3⟩, ⟨0, 1⟩, ⟨1, 1⟩] :=
  ⟨Example.env_lawful, by decide!, by decide!⟩

/-- C6, amended: for every score map whose `Value`s are pairwise distinct and none of them NaN,
the ranking is a function of the scores alone: any two environments that keep the contracts of
`range` and `sort.Sort`, in any state, return the same ranking, which is in strictly decreasing
order of `Value`.  (With equal `Value`s, or with a NaN, the order is left to `range` and
`sort.Sort`.) -/
theorem SortByValue_unique_of_distinct {Net1 G1 Net2 G2 : Type} (env1 : Env Net1 G1)
    (env2 : Env Net2 G2) (hlaw1 : env1.Lawful) (hlaw2 : env2.Lawful) (m : ScoreMap)
    (hnan : ∀ p ∈ m.entries, p.Value ≠ float64.nan)
    (hdistinct : (m.entries.map Pair.Value).Nodup) (g1 : G1) (g2 : G2) :
    (SortByValue env1 m g1).1 = (SortByValue env2 m g2).1 ∧
    (SortByValue env1 m g1).1.Pairwise (fun a b => a.Value > b.Value) := by
  have strict : ∀ {N H : Type} (env : Env N H), env.Lawful → ∀ g : H,
      (SortByValue env m g).1.Pairwise (fun a b => a.Value > b.Value) := by
    intro N H env hlaw g
    have hperm := SortByValue_perm env hlaw m g
    have hnd : ((SortByValue env m g).1.map Pair.Value).Nodup :=
      (hperm.map Pair.Value).nodup_iff.2 hdistinct
    have hne : (SortByValue env m g).1.Pairwise (fun a b => a.Value ≠ b.Value) :=
      (List.pairwise_map).1 hnd
    exact ((SortByValue_pairwise env hlaw m g hnan).and hne).imp
      (fun h => float64.lt_of_le_of_ne' h.1 (Ne.symm h.2))
  have : IsAntisymm Pair (fun a b => a.Value > b.Value) :=
    ⟨fun a b h1 h2 => absurd h1 (float64.not_lt_of_lt' h2)⟩
  exact ⟨List.eq_of_perm_of_sorted
    ((SortByValue_perm env1 hlaw1 m g1).trans (SortByValue_perm env2 hlaw2 m g2).symm)
    (strict env1 hlaw1 g1) (strict env2 hlaw2 g2), strict env1 hlaw1 g1⟩

/-- C6 amended, at a concrete map: `{0: 1, 1: 2, 2: 3}` has the same ranking whether `range`
starts at the first or at the second slot. -/
theorem SortByValue_unique_of_distinct_witness :
    (∀ p ∈ Example.distinct.entries, p.Value ≠ float64.nan) ∧
    (Example.distinct.entries.map Pair.Value).Nodup ∧
    (SortByValue Example.env Example.distinct 0).1 =
      (SortByValue Example.env Example.distinct 1).1 :=
  ⟨by decide!, by decide!,
    (SortByValue_unique_of_distinct Example.env Example.env Example.env_lawful
      Example.env_lawful Example.distinct (by decide!) (by decide!) 0 1).1⟩

/-! ## Scoring (C7) -/

/-- The per-network score as `ScorePopulation` computes it: the patterns paired with the
multipliers. -/
theorem ScorePopulation.inner_ok (env : Env Net G) (net : Net) (mult : List float64)
    (xs : List (List float64)) (i : Nat) (r v : float64)
    (h : ScorePopulation.inner env net mult xs i r = .ok v) :
    (xs = [] ∨ i + xs.length ≤ mult.length) ∧
    v = r + (List.zipWith (fun x c => env.Evaluate net x * c) xs (mult.drop i)).sum := by
  induction xs generalizing i r with
  | nil =>
    simp only [ScorePopulation.inner, Except.ok.injEq] at h
    subst h
    refine ⟨Or.inl rfl, ?_⟩
    rw [List.zipWith_nil_left, List.sum_nil, float64.add_zero']
  | cons x rest ih =>
    rw [ScorePopulation.inner] at h
    cases hc : mult[i]? with
    | none => rw [hc] at h; simp at h
    | some c =>
      rw [hc] at h
      simp only at h
      obtain ⟨hi, hget⟩ := List.getElem?_eq_some_iff.1 hc
      obtain ⟨hlen, hv⟩ := ih (i + 1) _ h
      refine ⟨Or.inr ?_, ?_⟩
      · rcases hlen with hnil | hlen
        · subst hnil
          simp only [List.length_cons, List.length_nil]
          omega
        · simp only [List.length_cons]
          omega
      · rw [hv, List.drop_eq_getElem_cons hi, hget, List.zipWith_cons_cons, List.sum_cons,
          float64.add_assoc']

/-- The inner loop does not panic when there are enough multipliers. -/
theorem ScorePopulation.inner_total (env : Env Net G) (net : Net) (mult : List float64)
    (xs : List (List float64)) (i : Nat) (r : float64) (h : i + xs.length ≤ mult.length) :
    ∃ v, ScorePopulation.inner env net mult xs i r = .ok v := by
  induction xs generalizing i r with
  | nil => exact ⟨r, rfl⟩
  | cons x rest ih =>
    rw [ScorePopulation.inner]
    simp only [List.length_cons] at h
    have hi : i < mult.length := by omega
    rw [List.getElem?_eq_getElem hi]
    exact ih (i + 1) _ (by omega)

/-- Pairing the patterns with the multipliers is summing over the pattern indices. -/
theorem zipWith_sum_eq_range (f : List float64 → float64 → float64) (xs : List (List float64)) (ys : List float64)
    (h : xs.length ≤ ys.length) :
    (List.zipWith f xs ys).sum =
      ((List.range xs.length).map (fun k => f (xs.getD k []) (ys.getD k 0))).sum := by
  induction xs generalizing ys with
  | nil => simp
  | cons x rest ih =>
    cases ys with
    | nil => simp at h
    | cons y ys =>
      simp only [List.length_cons, Nat.add_le_add_iff_right] at h
      rw [List.zipWith_cons_cons, List.sum_cons, ih ys h, List.length_cons,
        List.range_succ_eq_map, List.map_cons, List.sum_cons, List.map_map]
      rfl

/-- The score of a network in the form the loops compute it. -/
theorem ScorePopulation.outer_ok (env : Env Net G) (inputData : List (List float64))
    (mult : List float64) (w : float64) (rest : List Net) (i : Nat) (sm : ScoreMap) (ss : float64)
    (r : ScoreMap × float64) (hfresh : ∀ p ∈ sm.entries, p.Key < (i : Int))
    (h : ScorePopulation.outer env inputData mult w rest i sm ss = .ok r) :
    (rest = [] ∨ inputData = [] ∨ inputData.length ≤ mult.length) ∧
    (∀ net ∈ rest, Network.checkInputNeurons env net = .ok ()) ∧
    r.1.entries = sm.entries ++ (rest.enumFrom i).map (fun jn =>
      ⟨(jn.1 : Int), ScorePopulation.score env inputData mult w jn.2⟩) ∧
    r.2 = ss + (rest.map (ScorePopulation.score env inputData mult w)).sum := by
  induction rest generalizing i sm ss with
  | nil =>
    simp only [ScorePopulation.outer, Except.ok.injEq] at h
    subst h
    refine ⟨Or.inl rfl, by simp, by simp, ?_⟩
    simp only [List.map_nil, List.sum_nil, float64.add_zero']
  | cons p ps ih =>
    rw [ScorePopulation.outer] at h
    cases hchk : Network.checkInputNeurons env p with
    | error msg => rw [hchk] at h; simp at h
    | ok u =>
      rw [hchk] at h
      simp only at h
      cases hin : ScorePopulation.inner env (env.SetWeight p w) mult inputData 0 0 with
      | error msg => rw [hin] at h; simp at h
      | ok result =>
        rw [hin] at h
        simp only at h
        obtain ⟨hlen, hres⟩ := ScorePopulation.inner_ok env _ mult inputData 0 0 result hin
        simp only [List.drop_zero, zero_add] at hres hlen
        have hset : (sm.set (i : Int) (result / env.Complexity (env.SetWeight p w))).entries =
            sm.entries ++ [⟨(i : Int), result / env.Complexity (env.SetWeight p w)⟩] := by
          simp only [ScoreMap.set]
          rw [List.filter_eq_self.2]
          intro q hq
          have := hfresh q hq
          simp only [bne_iff_ne, ne_eq]
          omega
        have hfresh1 : ∀ q ∈ (sm.set (i : Int)
            (result / env.Complexity (env.SetWeight p w))).entries,
            q.Key < ((i + 1 : Nat) : Int) := by
          intro q hq
          rw [hset, List.mem_append] at hq
          rcases hq with hq | hq
          · have := hfresh q hq
            omega
          · simp only [List.mem_singleton] at hq
            subst hq
            simp only
            omega
        obtain ⟨_, hall, hent, hsum⟩ := ih (i + 1) _ _ hfresh1 h
        refine ⟨Or.inr hlen, ?_, ?_, ?_⟩
        · intro net hnet
          rcases List.mem_cons.1 hnet with rfl | hnet
          · exact hchk
          · exact hall net hnet
        · rw [hent, hset, hres, List.enumFrom_cons, List.map_cons, List.append_assoc]
          simp only [ScorePopulation.score, float64.zero_add']
          rfl
        · rw [hsum, hres, List.map_cons, List.sum_cons]
          simp only [ScorePopulation.score, float64.zero_add']
          rw [float64.add_assoc']

/-- The outer loop does not panic when every network passes the check and there are enough
multipliers. -/
theorem ScorePopulation.outer_total (env : Env Net G) (inputData : List (List float64))
    (mult : List float64) (w : float64) (rest : List Net) (i : Nat) (sm : ScoreMap) (ss : float64)
    (hcheck : ∀ net ∈ rest, Network.checkInputNeurons env net = .ok ())
    (hlen : inputData.length ≤ mult.length) :
    ∃ r, ScorePopulation.outer env inputData mult w rest i sm ss = .ok r := by
  induction rest generalizing i sm ss with
  | nil => exact ⟨_, rfl⟩
  | cons p ps ih =>
    rw [ScorePopulation.outer, hcheck p (List.mem_cons_self _ _)]
    simp only
    obtain ⟨v, hv⟩ := ScorePopulation.inner_total env (env.SetWeight p w) mult inputData 0 0
      (by omega)
    rw [hv]
    exact ih (i + 1) _ _ (fun net hnet => hcheck net (List.mem_cons_of_mem _ hnet))

/-- A map whose entries are the positions of a list paired with a value computed from the
element there: its keys, its values, its length and the sum of its values. -/
theorem ScoreMap.of_enum (sm : ScoreMap) (l : List Net) (f : Net → float64)
    (h : sm.entries = l.enum.map (fun jn => (⟨(jn.1 : Int), f jn.2⟩ : Pair))) :
    (∀ (i : Nat) (hi : i < l.length), sm.get (i : Int) = some (f l[i])) ∧
    (∀ (k : Int) (v : float64), sm.get k = some v →
      0 ≤ k ∧ ∃ hk : k.toNat < l.length, v = f l[k.toNat]) ∧
    sm.len = l.length ∧
    (sm.entries.map Pair.Value).sum = (l.map f).sum := by
  refine ⟨?_, ?_, ?_, ?_⟩
  · intro i hi
    rw [ScoreMap.get_eq_some_iff, h, List.mem_map]
    exact ⟨(i, l[i]), List.mk_mem_enum_iff_getElem?.2 (List.getElem?_eq_getElem hi), rfl⟩
  · intro k v hk
    rw [ScoreMap.get_eq_some_iff, h, List.mem_map] at hk
    obtain ⟨⟨j, net⟩, hmem, heq⟩ := hk
    have hj := List.mk_mem_enum_iff_getElem?.1 hmem
    obtain ⟨hlt, hget⟩ := List.getElem?_eq_some_iff.1 hj
    simp only [Pair.mk.injEq] at heq
    obtain ⟨hkj, hv⟩ := heq
    subst hkj
    refine ⟨Int.ofNat_nonneg j, ?_⟩
    simp only [Int.toNat_ofNat]
    exact ⟨hlt, by rw [hget, hv]⟩
  · simp [ScoreMap.len, h]
  · rw [h, List.map_map]
    have : (Pair.Value ∘ fun jn : Nat × Net => (⟨(jn.1 : Int), f jn.2⟩ : Pair)) =
        f ∘ Prod.snd := rfl
    rw [this, ← List.map_map, List.enum_map_snd]

/-- What a call of `ScorePopulation` that does not panic returns. -/
theorem ScorePopulation.of_ok (env : Env Net G) (population : List Net)
    (inputData : List (List float64)) (mult : List float64) (g g1 : G) (sm : ScoreMap) (ss : float64)
    (h : ScorePopulation env population inputData mult g = .ok ((sm, ss), g1)) :
    g1 = (env.Float64 g).2 ∧
    (population = [] ∨ inputData = [] ∨ inputData.length ≤ mult.length) ∧
    (∀ net ∈ population, Network.checkInputNeurons env net = .ok ()) ∧
    sm.entries = population.enum.map (fun jn =>
      (⟨(jn.1 : Int), ScorePopulation.score env inputData mult (env.Float64 g).1 jn.2⟩ : Pair)) ∧
    ss = (population.map (ScorePopulation.score env inputData mult (env.Float64 g).1)).sum := by
  unfold ScorePopulation at h
  simp only at h
  cases hout : ScorePopulation.outer env inputData mult (env.Float64 g).1 population 0
      ScoreMap.empty 0 with
  | error msg => rw [hout] at h; simp at h
  | ok r =>
    rw [hout] at h
    simp only [Except.ok.injEq, Prod.mk.injEq] at h
    obtain ⟨hr, hg⟩ := h
    subst hr
    obtain ⟨h1, h2, h3, h4⟩ := ScorePopulation.outer_ok env inputData mult _ population 0
      ScoreMap.empty 0 _ (by simp [ScoreMap.empty]) hout
    refine ⟨hg.symm, h1, h2, ?_, ?_⟩
    · rw [h3]
      simp [ScoreMap.empty, List.enum]
    · have h4a : ss = _ := h4
      rw [h4a, float64.zero_add']

/-- The keys of the score map `ScorePopulation` returns are the positions of the population. -/
theorem ScorePopulation.keys_of_ok (env : Env Net G) (population : List Net)
    (inputData : List (List float64)) (mult : List float64) (g g1 : G) (sm : ScoreMap) (ss : float64)
    (h : ScorePopulation env population inputData mult g = .ok ((sm, ss), g1)) :
    (∀ i : Nat, i < population.length → ∃ v, sm.get (i : Int) = some v) ∧
    (∀ (k : Int) (v : float64), sm.get k = some v → 0 ≤ k ∧ k.toNat < population.length) ∧
    sm.len = population.length := by
  obtain ⟨_, _, _, hent, _⟩ := ScorePopulation.of_ok env population inputData mult g g1 sm ss h
  obtain ⟨h1, h2, h3, _⟩ := ScoreMap.of_enum sm population _ hent
  refine ⟨fun i hi => ⟨_, h1 i hi⟩, fun k v hk => ?_, h3⟩
  obtain ⟨h0, hlt, _⟩ := h2 k v hk
  exact ⟨h0, hlt⟩

/-- C7, as stated, fails: a population holding a network with a dangling input index makes
`ScorePopulation` panic in `checkInputNeurons`, although there are as many multipliers as
patterns; it returns no score map. -/
theorem ScorePopulation_dangling_panics :
    ([[1]] : List (List float64)).length ≤ ([1] : List float64).length ∧
    ScorePopulation Example.env [Example.dangling] [[1]] [1] 0 =
      .error "input neuron index is pointing out of bounds" := by
  decide!

/-- C7, amended: for every population whose networks all pass `checkInputNeurons`, every
`inputData` and every multiplier list at least as long as `inputData`, `ScorePopulation` draws
exactly one weight `w` (the random state it leaves is the one after one `rand.Float64()`) and
returns `(scoreMap, scoreSum)` where `scoreMap` has exactly the keys `0 .. len(population)-1`,
`scoreMap[i]` is the sum over the patterns `k` of `Evaluate_i(inputData[k]) * multipliers[k]`
divided by `Complexity_i`, every network carrying that same weight `w`, and `scoreSum` is the
sum of the values of `scoreMap`. -/
theorem ScorePopulation_scores (env : Env Net G) (population : List Net)
    (inputData : List (List float64)) (correctOutputMultipliers : List float64) (g : G)
    (hcheck : ∀ net ∈ population, Network.checkInputNeurons env net = .ok ())
    (hlen : inputData.length ≤ correctOutputMultipliers.length) :
    ∃ scoreMap scoreSum,
      ScorePopulation env population inputData correctOutputMultipliers g =
        .ok ((scoreMap, scoreSum), (env.Float64 g).2) ∧
      scoreMap.len = population.length ∧
      (∀ (k : Int), (∃ v, scoreMap.get k = some v) ↔ (0 ≤ k ∧ k < (population.length : Int))) ∧
      (∀ (i : Nat) (hi : i < population.length), scoreMap.get (i : Int) =
        some (specScore env inputData correctOutputMultipliers (env.Float64 g).1
          population[i])) ∧
      scoreSum = (scoreMap.entries.map Pair.Value).sum := by
  obtain ⟨r, hr⟩ := ScorePopulation.outer_total env inputData correctOutputMultipliers
    (env.Float64 g).1 population 0 ScoreMap.empty 0 hcheck hlen
  have hsp : ScorePopulation env population inputData correctOutputMultipliers g =
      .ok ((r.1, r.2), (env.Float64 g).2) := by
    unfold ScorePopulation
    simp only
    rw [hr]
  obtain ⟨_, _, _, hent, hsum⟩ := ScorePopulation.of_ok env population inputData
    correctOutputMultipliers g _ r.1 r.2 hsp
  obtain ⟨h1, h2, h3, h4⟩ := ScoreMap.of_enum r.1 population _ hent
  have hspec : ∀ net : Net,
      ScorePopulation.score env inputData correctOutputMultipliers (env.Float64 g).1 net
      = specScore env inputData correctOutputMultipliers (env.Float64 g).1 net := by
    intro net
    rw [specScore, ScorePopulation.score,
      zipWith_sum_eq_range _ inputData correctOutputMultipliers hlen]
  refine ⟨r.1, r.2, hsp, h3, ?_, ?_, ?_⟩
  · intro k
    constructor
    · rintro ⟨v, hv⟩
      obtain ⟨h0, hlt, _⟩ := h2 k v hv
      exact ⟨h0, by omega⟩
    · rintro ⟨h0, hlt⟩
      have hk : k.toNat < population.length := by omega
      have := h1 k.toNat hk
      rw [Int.toNat_of_nonneg h0] at this
      exact ⟨_, this⟩
  · intro i hi
    rw [h1 i hi, hspec]
  · rw [hsum, h4]

/-- C7 amended, at a concrete input: two well-formed networks, two patterns, two
multipliers. -/
theorem ScorePopulation_scores_witness :
    ∃ scoreMap scoreSum,
      ScorePopulation Example.env (Evolve.populate Example.env Example.config 2 0).1
          [[1, 2], [3, 4]] [1, -1] 0 = .ok ((scoreMap, scoreSum), (Example.env.Float64 0).2) ∧
      scoreMap.len = (Evolve.populate Example.env Example.config 2 0).1.length ∧
      (∀ (k : Int), (∃ v, scoreMap.get k = some v) ↔
        (0 ≤ k ∧ k < ((Evolve.populate Example.env Example.config 2 0).1.length : Int))) ∧
      (∀ (i : Nat) (hi : i < (Evolve.populate Example.env Example.config 2 0).1.length),
        scoreMap.get (i : Int) = some (specScore Example.env [[1, 2], [3, 4]] [1, -1]
          (Example.env.Float64 0).1 (Evolve.populate Example.env Example.config 2 0).1[i])) ∧
      scoreSum = (scoreMap.entries.map Pair.Value).sum :=
  ScorePopulation_scores Example.env (Evolve.populate Example.env Example.config 2 0).1
    [[1, 2], [3, 4]] [1, -1] 0 (by decide!) (by decide)

/-! ## The generational loop (C8-C10) -/

/-- The loop at lines 61-63 creates as many networks as asked. -/
theorem Evolve.populate_length (env : Env Net G) (config : Config) (n : Nat) (g : G) :
    (Evolve.populate env config n g).1.length = n := by
  induction n generalizing g with
  | zero => rfl
  | succ n ih =>
    simp only [Evolve.populate, List.length_cons, ih]

/-- The state in which the generation loop starts. -/
theorem Evolve.setup_ok (env : Env Net G) (config : Config) (inputData : List (List float64))
    (correctOutputMultipliers : List float64) (g : G) (s0 : Locals Net G)
    (h : Evolve.setup env config inputData correctOutputMultipliers g = .ok s0) :
    ∃ first rest, inputData = first :: rest ∧
      (0 ≤ config.PopulationSize ∧ config.PopulationSize ≤ env.maxLen) ∧
      s0.config = { config with Inputs := (first.length : Int) } ∧
      s0.population = (Evolve.populate env { config with Inputs := (first.length : Int) }
        config.PopulationSize.toNat g).1 ∧
      s0.rng = (Evolve.populate env { config with Inputs := (first.length : Int) }
        config.PopulationSize.toNat g).2 ∧
      s0.bestNetwork = none := by
  cases inputData with
  | nil => simp [Evolve.setup] at h
  | cons first rest =>
    refine ⟨first, rest, rfl, ?_⟩
    unfold Evolve.setup at h
    simp only at h
    split at h
    · exact absurd h (by simp)
    · split at h
      · exact absurd h (by simp)
      · rename_i hp
        simp only [Except.ok.injEq] at h
        subst h
        exact ⟨⟨not_lt.1 (fun h => hp (Or.inl h)), not_lt.1 (fun h => hp (Or.inr h))⟩,
          rfl, rfl, rfl, rfl⟩

/-- When the generation loop ends without a panic after at least one generation, the state it
ends in is the one its last generation produced, from a state with the same population and
multipliers as at the start. -/
theorem Evolve.loop_last (env : Env Net G) (inputData : List (List float64)) (n : Nat)
    (s s1 : Locals Net G) (h : Evolve.loop env inputData (n + 1) s = (none, s1)) :
    ∃ sp, Evolve.generation env inputData sp = .ok s1 ∧ sp.population = s.population ∧
      sp.correctOutputMultipliers = s.correctOutputMultipliers := by
  induction n generalizing s with
  | zero =>
    rw [Evolve.loop] at h
    cases hgen : Evolve.generation env inputData s with
    | error msg => rw [hgen] at h; simp at h
    | ok s2 =>
      rw [hgen] at h
      simp only [Evolve.loop, Prod.mk.injEq, true_and] at h
      subst h
      exact ⟨s, hgen, rfl, rfl⟩
  | succ n ih =>
    rw [Evolve.loop] at h
    cases hgen : Evolve.generation env inputData s with
    | error msg => rw [hgen] at h; simp at h
    | ok s2 =>
      rw [hgen] at h
      obtain ⟨sp, h1, h2, h3⟩ := ih s2 h
      obtain ⟨_, _, _, _, _, _, _, _, _, _, _, _, _, _, hp, _, hm, _⟩ :=
        Evolve.generation_ok env inputData s s2 hgen
      exact ⟨sp, h1, h2.trans hp, h3.trans hm⟩

/-- When `Evolve` returns a network, the population was built, at least one generation ran, no
generation panicked, and the network is the one `bestNetwork` points to. -/
theorem Evolve.of_network (env : Env Net G) (config : Config) (inputData : List (List float64))
    (correctOutputMultipliers : List float64) (g : G) (net : Net) (s : Locals Net G)
    (h : Evolve env config inputData correctOutputMultipliers g = (.network net, s)) :
    ∃ s0 n k, Evolve.setup env config inputData correctOutputMultipliers g = .ok s0 ∧
      Evolve.loop env inputData (n + 1) s0 = (none, s) ∧
      s.bestNetwork = some k ∧ s.population[k]? = some net := by
  unfold Evolve at h
  cases hs : Evolve.setup env config inputData correctOutputMultipliers g with
  | error r =>
    rw [hs] at h
    simp only at h
    subst h
    cases inputData with
    | nil => simp [Evolve.setup] at hs
    | cons first rest =>
      rcases Evolve.setup_cons env config first rest correctOutputMultipliers g with
        ⟨_, hs1⟩ | ⟨_, ⟨s1, hs1, _⟩ | ⟨s0, hs1, _⟩⟩ <;> rw [hs1] at hs <;> simp at hs
  | ok s0 =>
    rw [hs] at h
    simp only at h
    rcases hloop : Evolve.loop env inputData s0.config.Generations.toNat s0 with ⟨_ | msg, s1⟩
    · rw [hloop] at h
      simp only at h
      cases hb : s1.bestNetwork with
      | none => rw [hb] at h; simp at h
      | some k =>
        rw [hb] at h
        simp only at h
        cases hk : s1.population[k]? with
        | none => rw [hk] at h; simp at h
        | some net1 =>
          rw [hk] at h
          simp only [Prod.mk.injEq, Outcome.network.injEq] at h
          obtain ⟨hn, hs1⟩ := h
          subst hn hs1
          cases hgen : s0.config.Generations.toNat with
          | zero =>
            rw [hgen] at hloop
            simp only [Evolve.loop, Prod.mk.injEq, true_and] at hloop
            subst hloop
            obtain ⟨_, _, _, _, _, _, _, hnone⟩ := Evolve.setup_ok env config inputData
              correctOutputMultipliers g s0 hs
            rw [hnone] at hb
            simp at hb
          | succ n =>
            rw [hgen] at hloop
            exact ⟨s0, n, k, rfl, hloop, hb, hk⟩
    · rw [hloop] at h
      simp at h

/-- C8: the code at the failing input.  With three networks, two generations and the patterns
`Example.inputData`, the ranking loop of the last generation labels the networks at positions 2
and 1 `WORST TWO THIRDS`, and the population `Evolve` ends with is still the one the
initialisation loop created: no network was replaced by a modified copy, in either
generation. -/
theorem Evolve_worst_two_thirds_kept :
    (Evolve Example.env Example.config Example.inputData [1] 0).2.report =
      [(true, ⟨0, 1 / 12⟩), (false, ⟨2, 1 / 12⟩), (false, ⟨1, -1 / 10⟩)] ∧
    (Evolve Example.env Example.config Example.inputData [1] 0).2.population =
      (Evolve.populate Example.env { Example.config with Inputs := 3 } 3 0).1 ∧
    (Example.stateAfter 1).population = (Example.stateAfter 0).population ∧
    (Example.stateAfter 2).population = (Example.stateAfter 1).population := by
  decide!

/-- C9: in an environment where `range` and `sort.Sort` keep their contracts, let `s` be the
state of a run of `Evolve` at the start of a generation (after `j` generations) and `s1` the
state at the start of the next one.  Every individual ranked within the top `len(population)/3`
positions of that generation is a position of the population, and the network at that position
is the same in `s1` as in `s` (indeed the whole population is); and the length of the
population is `config.PopulationSize` in both states. -/
theorem Evolve_elite_kept (env : Env Net G) (hlaw : env.Lawful) (config : Config)
    (inputData : List (List float64)) (correctOutputMultipliers : List float64) (g : G)
    (s0 : Locals Net G)
    (hsetup : Evolve.setup env config inputData correctOutputMultipliers g = .ok s0)
    (j : Nat) (s s1 : Locals Net G)
    (hrun : Evolve.loop env inputData j s0 = (none, s))
    (hgen : Evolve.generation env inputData s = .ok s1) :
    (∀ p ∈ s1.scoreList.take (s.population.length / 3),
      0 ≤ p.Key ∧ ∃ net, s.population[p.Key.toNat]? = some net ∧
        s1.population[p.Key.toNat]? = some net) ∧
    s1.population = s.population ∧
    (s.population.length : Int) = config.PopulationSize ∧
    (s1.population.length : Int) = config.PopulationSize := by
  obtain ⟨scoreMap, scoreSum, g1, top, hsp, hsm, hsl, _, _, _, _, _, _, _, hpop, _⟩ :=
    Evolve.generation_ok env inputData s s1 hgen
  obtain ⟨first, rest, _, hsize, _, hpop0, _⟩ := Evolve.setup_ok env config inputData
    correctOutputMultipliers g s0 hsetup
  have hframe := (Evolve.loop_frame env inputData j s0).2.2
  rw [hrun] at hframe
  simp only at hframe
  have hlen : (s.population.length : Int) = config.PopulationSize := by
    rw [hframe, hpop0, Evolve.populate_length, Int.toNat_of_nonneg hsize.1]
  refine ⟨?_, hpop, hlen, by rw [hpop]; exact hlen⟩
  intro p hp
  have hmem : p ∈ scoreMap.entries := by
    have := List.mem_of_mem_take hp
    rw [hsl] at this
    exact (SortByValue_perm env hlaw scoreMap g1).mem_iff.1 this
  have hget := (scoreMap.get_eq_some_iff p.Key p.Value).2 hmem
  obtain ⟨h0, hlt⟩ := (ScorePopulation.keys_of_ok env _ _ _ _ _ _ _ hsp).2.1 _ _ hget
  refine ⟨h0, s.population[p.Key.toNat], List.getElem?_eq_getElem hlt, ?_⟩
  rw [hpop]
  exact List.getElem?_eq_getElem hlt

/-- C9, at the example run: the second generation. -/
theorem Evolve_elite_kept_witness :
    Evolve.setup Example.env Example.config Example.inputData [1] 0 =
      .ok (Example.stateAfter 0) ∧
    Evolve.loop Example.env Example.inputData 1 (Example.stateAfter 0) =
      (none, Example.stateAfter 1) ∧
    Evolve.generation Example.env Example.inputData (Example.stateAfter 1) =
      .ok (Example.stateAfter 2) ∧
    (∀ p ∈ (Example.stateAfter 2).scoreList.take ((Example.stateAfter 1).population.length / 3),
      0 ≤ p.Key ∧ ∃ net, (Example.stateAfter 1).population[p.Key.toNat]? = some net ∧
        (Example.stateAfter 2).population[p.Key.toNat]? = some net) ∧
    (Example.stateAfter 2).population = (Example.stateAfter 1).population ∧
    ((Example.stateAfter 1).population.length : Int) = Example.config.PopulationSize ∧
    ((Example.stateAfter 2).population.length : Int) = Example.config.PopulationSize :=
  ⟨by decide!, by decide!, by decide!,
    Evolve_elite_kept Example.env Example.env_lawful Example.config Example.inputData [1] 0
      (Example.stateAfter 0) (by decide!) 1 (Example.stateAfter 1) (Example.stateAfter 2)
      (by decide!) (by decide!)⟩

/-- The quotient environment is lawful. -/
theorem Example.quotientEnv_lawful : Example.quotientEnv.Lawful where
  mapRange_perm := fun m _ => List.Perm.refl m.entries
  sortSort_perm := fun less l => Example.insertionSort_perm less l
  sortSort_sorted := fun l hnan => Example.insertionSort_sorted l hnan

/-- C10, as stated, fails: three networks, one generation, one pattern, on which the networks
at positions 0, 1, 2 score `3/20`, NaN (zero divided by zero) and `3/10`.  No comparison with
NaN is true, so the sort leaves the ranking in the order 0, 1, 2; `Evolve` returns the network
at position 0, although the network at position 2 scored strictly higher. -/
theorem Evolve_returns_lower_ranked :
    Example.quotientEnv.Lawful ∧
    (Evolve Example.quotientEnv Example.configOneGeneration Example.quotientData [1] 0).1 =
      .network 0 ∧
    (Evolve Example.quotientEnv Example.configOneGeneration Example.quotientData [1]
      0).2.population = [0, 1, 2] ∧
    (Evolve Example.quotientEnv Example.configOneGeneration Example.quotientData [1]
      0).2.scoreList = [⟨0, 3 / 20⟩, ⟨1, float64.nan⟩, ⟨2, 3 / 10⟩] ∧
    (Evolve Example.quotientEnv Example.configOneGeneration Example.quotientData [1]
      0).2.scoreMap.get 0 = some (3 / 20) ∧
    (Evolve Example.quotientEnv Example.configOneGeneration Example.quotientData [1]
      0).2.scoreMap.get 2 = some (3 / 10) ∧
    (3 / 20 : float64) < 3 / 10 :=
  ⟨Example.quotientEnv_lawful, by decide!, by decide!, by decide!, by decide!, by decide!,
    by decide!⟩

/-- C10, amended: in an environment where `range` and `sort.Sort` keep their contracts, whenever
`Evolve` returns a network without error, ending in the state `s`, and no score of the final
generation is NaN: the score map `s.scoreMap` of the final generation is a scoring of the final
population, its ranking `s.scoreList` has a first entry `top`, the returned network is the
population member at position `top.Key`, whose score is `top.Value`, and every member of the
population has a score in that generation, none strictly higher than `top.Value`. -/
theorem Evolve_returns_top_ranked (env : Env Net G) (hlaw : env.Lawful) (config : Config)
    (inputData : List (List float64)) (correctOutputMultipliers : List float64) (g : G) (net : Net)
    (s : Locals Net G)
    (h : Evolve env config inputData correctOutputMultipliers g = (.network net, s))
    (hnan : ∀ p ∈ s.scoreMap.entries, p.Value ≠ float64.nan) :
    ∃ top scoreSum g0 g1,
      ScorePopulation env s.population inputData s.correctOutputMultipliers g0 =
        .ok ((s.scoreMap, scoreSum), g1) ∧
      s.scoreList = (SortByValue env s.scoreMap g1).1 ∧
      s.scoreList.head? = some top ∧
      0 ≤ top.Key ∧
      s.population[top.Key.toNat]? = some net ∧
      s.scoreMap.get top.Key = some top.Value ∧
      (∀ i : Nat, i < s.population.length →
        ∃ v, s.scoreMap.get (i : Int) = some v ∧ v ≤ top.Value) := by
  obtain ⟨s0, n, k, _, hloop, hbest, hk⟩ := Evolve.of_network env config inputData
    correctOutputMultipliers g net s h
  obtain ⟨sp, hgen, _, _⟩ := Evolve.loop_last env inputData n s0 s hloop
  obtain ⟨scoreMap, scoreSum, g1, top, hsp, hsm, hsl, _, htop, _, h0, _, hb, _, hpop, _, hm, _⟩ :=
    Evolve.generation_ok env inputData sp s hgen
  subst hsm
  rw [← hpop, ← hm] at hsp
  have hperm := SortByValue_perm env hlaw s.scoreMap g1
  rw [← hsl] at hperm
  have hsorted := SortByValue_pairwise env hlaw s.scoreMap g1 hnan
  rw [← hsl] at hsorted
  have hkeq : k = top.Key.toNat := by
    rw [hbest] at hb
    exact Option.some.inj hb
  subst hkeq
  have hhead : s.scoreList.head? = some top := by
    rw [← htop]
    cases s.scoreList <;> simp
  have htopmem : top ∈ s.scoreList := List.mem_of_mem_head? hhead
  have hmax : ∀ p ∈ s.scoreList, p.Value ≤ top.Value := by
    intro p hp
    cases hl : s.scoreList with
    | nil => rw [hl] at hp; simp at hp
    | cons a rest =>
      rw [hl] at hhead hp hsorted
      simp only [List.head?_cons, Option.some.injEq] at hhead
      subst hhead
      rcases List.mem_cons.1 hp with rfl | hp
      · exact float64.le_refl' (hnan _ (hperm.mem_iff.1 htopmem))
      · exact (List.pairwise_cons.1 hsorted).1 p hp
  refine ⟨top, scoreSum, sp.rng, g1, hsp, hsl, hhead, h0, hk, ?_, ?_⟩
  · exact (s.scoreMap.get_eq_some_iff _ _).2 (hperm.mem_iff.1 htopmem)
  · intro i hi
    obtain ⟨v, hv⟩ := (ScorePopulation.keys_of_ok env _ _ _ _ _ _ _ hsp).1 i hi
    refine ⟨v, hv, ?_⟩
    have := hmax _ (hperm.mem_iff.2 ((s.scoreMap.get_eq_some_iff _ _).1 hv))
    exact this

/-- C10 amended, at the example run: the network returned is the one at position 0, ranked
first with the score 1/12. -/
theorem Evolve_returns_top_ranked_witness :
    Evolve Example.env Example.config Example.inputData [1] 0 =
      (.network ⟨[⟨0, []⟩, ⟨1, []⟩, ⟨2, []⟩, ⟨3, [0, 2]⟩], 0⟩, Example.stateAfter 2) ∧
    (∀ p ∈ (Example.stateAfter 2).scoreMap.entries, p.Value ≠ float64.nan) ∧
    ∃ top scoreSum g0 g1,
      ScorePopulation Example.env (Example.stateAfter 2).population Example.inputData
          (Example.stateAfter 2).correctOutputMultipliers g0 =
        .ok (((Example.stateAfter 2).scoreMap, scoreSum), g1) ∧
      (Example.stateAfter 2).scoreList =
        (SortByValue Example.env (Example.stateAfter 2).scoreMap g1).1 ∧
      (Example.stateAfter 2).scoreList.head? = some top ∧
      0 ≤ top.Key ∧
      (Example.stateAfter 2).population[top.Key.toNat]? =
        some ⟨[⟨0, []⟩, ⟨1, []⟩, ⟨2, []⟩, ⟨3, [0, 2]⟩], 0⟩ ∧
      (Example.stateAfter 2).scoreMap.get top.Key = some top.Value ∧
      (∀ i : Nat, i < (Example.stateAfter 2).population.length →
        ∃ v, (Example.stateAfter 2).scoreMap.get (i : Int) = some v ∧ v ≤ top.Value) :=
  ⟨by decide!, by decide!,
    Evolve_returns_top_ranked Example.env Example.env_lawful Example.config Example.inputData
      [1] 0 _ (Example.stateAfter 2) (by decide!) (by decide!)⟩

/-! ## The configuration and the generation count (C11, C18) -/

/-- The result of `Evolve.setup` on arguments that pass validation: a panic in `make` when the
population size is negative, the state the generation loop starts in otherwise.  In both cases
`config.Inputs` has been written and the multiplier list is as long as the pattern list. -/
theorem Evolve.setup_valid (env : Env Net G) (config : Config) (first : List float64)
    (rest : List (List float64)) (mult : List float64) (g : G)
    (hvalid : ¬ (mult.length ≠ (first :: rest).length ∧ mult.length ≠ 1)) :
    ((config.PopulationSize < 0 ∨ env.maxLen < config.PopulationSize) ∧ ∃ s1 : Locals Net G,
      Evolve.setup env config (first :: rest) mult g =
        .error (.panic "makeslice: len out of range", s1) ∧
      s1.config = { config with Inputs := (first.length : Int) } ∧
      s1.population = [] ∧ s1.rng = g ∧
      s1.correctOutputMultipliers.length = (first :: rest).length) ∨
    ((0 ≤ config.PopulationSize ∧ config.PopulationSize ≤ env.maxLen) ∧ ∃ s0 : Locals Net G,
      Evolve.setup env config (first :: rest) mult g = .ok s0 ∧
      s0.config = { config with Inputs := (first.length : Int) } ∧
      s0.population = (Evolve.populate env { config with Inputs := (first.length : Int) }
        config.PopulationSize.toNat g).1 ∧
      s0.correctOutputMultipliers.length = (first :: rest).length ∧
      s0.bestNetwork = none) := by
  have hlen : (if mult.length = 1 ∧ (first :: rest).length ≠ 1 then
      Evolve.fill ((first :: rest).length - 1) mult else mult).length
      = (first :: rest).length := by
    by_cases h1 : mult.length = 1 ∧ (first :: rest).length ≠ 1
    · rw [if_pos h1, Evolve.fill_eq, List.length_append, List.length_replicate, h1.1]
      simp only [List.length_cons]
      omega
    · rw [if_neg h1]
      by_contra hne
      exact hvalid ⟨hne, fun h => h1 ⟨h, fun hn => hne (h.trans hn.symm)⟩⟩
  rcases Evolve.setup_cons env config first rest mult g with
    ⟨hc, _⟩ | ⟨_, ⟨s1, hs, hm⟩ | ⟨s0, hs, hcfg, hm⟩⟩
  · exact absurd hc hvalid
  · left
    have hs1 := hs
    unfold Evolve.setup at hs1
    simp only at hs1
    split at hs1
    · rename_i msg hv
      split at hv
      · exact absurd hv (by simp)
      · split at hv
        · rename_i hne
          exact absurd ⟨fun h => hne h.symm, fun h => by
            rename_i h1
            exact h1 ⟨h, fun hn => hne (hn.trans h.symm)⟩⟩ hvalid
        · exact absurd hv (by simp)
    · split at hs1
      · rename_i hp
        simp only [Except.error.injEq, Prod.mk.injEq, true_and] at hs1
        refine ⟨hp, s1, hs, ?_, ?_, ?_, ?_⟩
        · rw [← hs1]
        · rw [← hs1]; rfl
        · rw [← hs1]; rfl
        · rw [hm]; exact hlen
      · exact absurd hs1 (by simp)
  · right
    obtain ⟨_, _, hcons, hsize, _, hpop, _, hnone⟩ :=
      Evolve.setup_ok env config (first :: rest) mult g s0 hs
    simp only [List.cons.injEq] at hcons
    obtain ⟨hf, _⟩ := hcons
    subst hf
    exact ⟨hsize, s0, hs, hcfg, hpop, by rw [hm]; exact hlen, hnone⟩

/-- C11: for every call of `Evolve` whose arguments pass validation (a non-empty pattern list,
and a multiplier list with one element or as many as there are patterns), the configuration
`Evolve` ends with has `Inputs` equal to the length of the first pattern and every other field
as before the call; and every network of the population was created by `NewNetwork` from the
configuration with `Inputs` already written (none is created when `make` panics, the
population size being negative or above the limit of `make`). -/
theorem Evolve_config_Inputs (env : Env Net G) (config : Config) (first : List float64)
    (rest : List (List float64)) (correctOutputMultipliers : List float64) (g : G)
    (hvalid : ¬ (correctOutputMultipliers.length ≠ (first :: rest).length ∧
      correctOutputMultipliers.length ≠ 1)) :
    (Evolve env config (first :: rest) correctOutputMultipliers g).2.config.Inputs
      = (first.length : Int) ∧
    (Evolve env config (first :: rest) correctOutputMultipliers g).2.config.PopulationSize
      = config.PopulationSize ∧
    (Evolve env config (first :: rest) correctOutputMultipliers g).2.config.Generations
      = config.Generations ∧
    (Evolve env config (first :: rest) correctOutputMultipliers g).2.config.InitialConnectionRatio
      = config.InitialConnectionRatio ∧
    (Evolve env config (first :: rest) correctOutputMultipliers g).2.config.Verbose
      = config.Verbose ∧
    (Evolve env config (first :: rest) correctOutputMultipliers g).2.population =
      (if config.PopulationSize < 0 ∨ env.maxLen < config.PopulationSize then []
       else (Evolve.populate env { config with Inputs := (first.length : Int) }
        config.PopulationSize.toNat g).1) := by
  rcases Evolve.setup_valid env config first rest correctOutputMultipliers g hvalid with
    ⟨hneg, s1, hs, hcfg, hpop, _⟩ | ⟨hpos, s0, hs, hcfg, hpop, _⟩
  · have : Evolve env config (first :: rest) correctOutputMultipliers g =
        (.panic "makeslice: len out of range", s1) := by
      unfold Evolve; rw [hs]
    rw [this, if_pos hneg]
    simp only [hcfg, hpop, and_self]
  · rw [Evolve.state_of_setup_ok env config _ _ g s0 hs,
      if_neg (fun h => h.elim (fun h1 => absurd hpos.1 (not_le.2 h1))
        (fun h1 => absurd hpos.2 (not_le.2 h1)))]
    obtain ⟨h1, _, h3⟩ := Evolve.loop_frame env (first :: rest) s0.config.Generations.toNat s0
    rw [h1, h3, hcfg, hpop]
    simp only [and_self]

/-- C11, at the example run: `Inputs` becomes 3, the length of the first pattern. -/
theorem Evolve_config_Inputs_witness :
    (Evolve Example.env Example.config ([1, 2, 5] :: [[3, 4, 1]]) [1] 0).2.config.Inputs
      = (([1, 2, 5] : List float64).length : Int) ∧
    (Evolve Example.env Example.config ([1, 2, 5] :: [[3, 4, 1]]) [1] 0).2.config.PopulationSize
      = Example.config.PopulationSize :=
  ⟨(Evolve_config_Inputs Example.env Example.config [1, 2, 5] [[3, 4, 1]] [1] 0
      (by decide)).1,
    (Evolve_config_Inputs Example.env Example.config [1, 2, 5] [[3, 4, 1]] [1] 0
      (by decide)).2.1⟩

/-- C18, as stated, fails: with a negative `config.PopulationSize`, or one above what `make`
accepts, the call of `make` panics before the loop is reached, although the arguments pass
validation and `config.Generations` is 0; `Evolve` does not return. -/
theorem Evolve_negative_size_panics :
    (Evolve Example.env Example.configNegativeSize [[1]] [1] 0).1 =
      .panic "makeslice: len out of range" ∧
    (Evolve Example.env Example.configHugeSize [[1]] [1] 0).1 =
      .panic "makeslice: len out of range" := by
  decide!

/-- C18, amended: for arguments that pass validation and a configuration whose
`PopulationSize` is a length `make` accepts (not negative and not above `env.maxLen`), if
`config.Generations ≤ 0` then `Evolve` returns no network and the error "the best network is
nil", which is neither of the two validation errors. -/
theorem Evolve_no_generations (env : Env Net G) (config : Config) (first : List float64)
    (rest : List (List float64)) (correctOutputMultipliers : List float64) (g : G)
    (hvalid : ¬ (correctOutputMultipliers.length ≠ (first :: rest).length ∧
      correctOutputMultipliers.length ≠ 1))
    (hsize : 0 ≤ config.PopulationSize) (hlimit : config.PopulationSize ≤ env.maxLen)
    (hgen : config.Generations ≤ 0) :
    (Evolve env config (first :: rest) correctOutputMultipliers g).1 =
      .error "the best network is nil" := by
  rcases Evolve.setup_valid env config first rest correctOutputMultipliers g hvalid with
    ⟨hneg, _⟩ | ⟨_, s0, hs, hcfg, _, _, hnone⟩
  · rcases hneg with hneg | hneg <;> omega
  · unfold Evolve
    rw [hs]
    simp only
    have h0 : s0.config.Generations.toNat = 0 := by
      rw [hcfg]
      exact Int.toNat_eq_zero.2 hgen
    rw [h0]
    simp only [Evolve.loop, hnone]

/-- C18 amended, at a concrete input: three networks, no generation. -/
theorem Evolve_no_generations_witness :
    ¬ (([1] : List float64).length ≠ (([1, 2] : List float64) :: []).length ∧ ([1] : List float64).length ≠ 1) ∧
    0 ≤ Example.configNoGeneration.PopulationSize ∧
    Example.configNoGeneration.PopulationSize ≤ Example.env.maxLen ∧
    Example.configNoGeneration.Generations ≤ 0 ∧
    (Evolve Example.env Example.configNoGeneration ([1, 2] :: []) [1] 0).1 =
      .error "the best network is nil" :=
  ⟨by decide, by decide, by decide, by decide,
    Evolve_no_generations Example.env Example.configNoGeneration [1, 2] [] [1] 0
      (by decide) (by decide) (by decide) (by decide)⟩

/-! ## The multiplier index (C19) -/

/-- The only panic of `Neuron.checkInputNeurons` is the out-of-bounds one. -/
theorem Neuron.checkInputNeurons.loop_error (n : Nat) (l : List NeuronIndex) (msg : String)
    (h : Neuron.checkInputNeurons.loop n l = .error msg) :
    msg = "input neuron index is pointing out of bounds" := by
  induction l with
  | nil => simp [Neuron.checkInputNeurons.loop] at h
  | cons i rest ih =>
    rw [Neuron.checkInputNeurons.loop] at h
    split at h
    · simp only [Except.error.injEq] at h
      exact h.symm
    · exact ih h

/-- The only panic of `Network.checkInputNeurons` is the out-of-bounds one. -/
theorem Network.checkInputNeurons_error (env : Env Net G) (net : Net) (msg : String)
    (h : Network.checkInputNeurons env net = .error msg) :
    msg = "input neuron index is pointing out of bounds" := by
  unfold Network.checkInputNeurons at h
  generalize Network.All env net = l at h
  induction l with
  | nil => simp [Network.checkInputNeurons.loop] at h
  | cons n rest ih =>
    rw [Network.checkInputNeurons.loop] at h
    split at h
    · rename_i m hm
      simp only [Except.error.injEq] at h
      subst h
      exact Neuron.checkInputNeurons.loop_error _ _ _ hm
    · exact ih h

/-- With at least as many multipliers as patterns, the only panic of `ScorePopulation` is the
one of `checkInputNeurons`. -/
theorem ScorePopulation.error_of_enough (env : Env Net G) (population : List Net)
    (inputData : List (List float64)) (mult : List float64) (g : G) (msg : String)
    (hlen : inputData.length ≤ mult.length)
    (h : ScorePopulation env population inputData mult g = .error msg) :
    msg = "input neuron index is pointing out of bounds" := by
  unfold ScorePopulation at h
  simp only at h
  have key : ∀ (rest : List Net) (i : Nat) (sm : ScoreMap) (ss : float64),
      ScorePopulation.outer env inputData mult (env.Float64 g).1 rest i sm ss = .error msg →
      msg = "input neuron index is pointing out of bounds" := by
    intro rest
    induction rest with
    | nil => intro i sm ss h1; simp [ScorePopulation.outer] at h1
    | cons p ps ih =>
      intro i sm ss h1
      rw [ScorePopulation.outer] at h1
      cases hchk : Network.checkInputNeurons env p with
      | error m =>
        rw [hchk] at h1
        simp only [Except.error.injEq] at h1
        subst h1
        exact Network.checkInputNeurons_error env p _ hchk
      | ok u =>
        rw [hchk] at h1
        simp only at h1
        obtain ⟨v, hv⟩ := ScorePopulation.inner_total env (env.SetWeight p (env.Float64 g).1)
          mult inputData 0 0 (by omega)
        rw [hv] at h1
        exact ih _ _ _ h1
  cases hout : ScorePopulation.outer env inputData mult (env.Float64 g).1 population 0
      ScoreMap.empty 0 with
  | error m =>
    rw [hout] at h
    simp only [Except.error.injEq] at h
    subst h
    exact key _ _ _ _ hout
  | ok r => rw [hout] at h; simp at h

/-- C19: when the arguments of `Evolve` pass validation and the population is built, then in
the state `s` at the start of every generation (after `j` generations without panic) the
multiplier list handed to `ScorePopulation` has length exactly `len(inputData)`; so
`correctOutputMultipliers[i]` is in bounds for every `i < len(inputData)`, the inner loop of
`ScorePopulation` completes for every network, and the call of `ScorePopulation` in that
generation does not end in the out-of-range panic. -/
theorem Evolve_multipliers_in_bounds (env : Env Net G) (config : Config)
    (inputData : List (List float64)) (correctOutputMultipliers : List float64) (g : G)
    (s0 : Locals Net G)
    (hsetup : Evolve.setup env config inputData correctOutputMultipliers g = .ok s0)
    (j : Nat) (s : Locals Net G)
    (hrun : Evolve.loop env inputData j s0 = (none, s)) :
    s.correctOutputMultipliers.length = inputData.length ∧
    (∀ i : Nat, i < inputData.length → ∃ c, s.correctOutputMultipliers[i]? = some c) ∧
    (∀ net : Net, ∃ v,
      ScorePopulation.inner env net s.correctOutputMultipliers inputData 0 0 = .ok v) ∧
    ScorePopulation env s.population inputData s.correctOutputMultipliers s.rng ≠
      .error "index out of range" := by
  obtain ⟨first, rest, hcons, _⟩ := Evolve.setup_ok env config inputData
    correctOutputMultipliers g s0 hsetup
  subst hcons
  have hlen0 : s0.correctOutputMultipliers.length = (first :: rest).length := by
    by_cases hvalid : ¬ (correctOutputMultipliers.length ≠ (first :: rest).length ∧
        correctOutputMultipliers.length ≠ 1)
    · rcases Evolve.setup_valid env config first rest correctOutputMultipliers g hvalid with
        ⟨_, s1, hs, _⟩ | ⟨_, s2, hs, _, _, hl, _⟩
      · rw [hs] at hsetup; simp at hsetup
      · rw [hs] at hsetup
        simp only [Except.ok.injEq] at hsetup
        subst hsetup
        exact hl
    · rcases Evolve.setup_cons env config first rest correctOutputMultipliers g with
        ⟨_, hs⟩ | ⟨hc, _⟩
      · rw [hs] at hsetup; simp at hsetup
      · exact absurd hc hvalid
  have hframe := (Evolve.loop_frame env (first :: rest) j s0).2.1
  rw [hrun] at hframe
  simp only at hframe
  have hlen : s.correctOutputMultipliers.length = (first :: rest).length := by
    rw [hframe]; exact hlen0
  refine ⟨hlen, ?_, ?_, ?_⟩
  · intro i hi
    exact ⟨_, List.getElem?_eq_getElem (by omega)⟩
  · intro net
    exact ScorePopulation.inner_total env net _ _ 0 0 (by omega)
  · intro herr
    have := ScorePopulation.error_of_enough env _ _ _ _ _ (by omega) herr
    exact absurd this (by decide)

/-- C19, at the example run: the start of the second generation. -/
theorem Evolve_multipliers_in_bounds_witness :
    Evolve.setup Example.env Example.config Example.inputData [1] 0 =
      .ok (Example.stateAfter 0) ∧
    Evolve.loop Example.env Example.inputData 1 (Example.stateAfter 0) =
      (none, Example.stateAfter 1) ∧
    (Example.stateAfter 1).correctOutputMultipliers.length = Example.inputData.length ∧
    (∀ i : Nat, i < Example.inputData.length →
      ∃ c, (Example.stateAfter 1).correctOutputMultipliers[i]? = some c) ∧
    (∀ net : Example.Network, ∃ v,
      ScorePopulation.inner Example.env net (Example.stateAfter 1).correctOutputMultipliers
        Example.inputData 0 0 = .ok v) ∧
    ScorePopulation Example.env (Example.stateAfter 1).population Example.inputData
        (Example.stateAfter 1).correctOutputMultipliers (Example.stateAfter 1).rng ≠
      .error "index out of range" :=
  ⟨by decide!, by decide!,
    Evolve_multipliers_in_bounds Example.env Example.config Example.inputData [1] 0
      (Example.stateAfter 0) (by decide!) 1 (Example.stateAfter 1) (by decide!)⟩

/-! ## The statistics of a generation (C12, C13) -/

/-- What a generation that does not panic does to the three counters: the `last...Score`
variables hold the values the statistics were reset to at the top of the loop body, the counter
of the best score is incremented, the counter of the average score is incremented when the
average is at least 0 and reset otherwise, the counter of the worst score is incremented when
the worst score is at least 9999 and reset otherwise. -/
theorem Evolve.generation_counters (env : Env Net G) (inputData : List (List float64))
    (s s1 : Locals Net G) (h : Evolve.generation env inputData s = .ok s1) :
    s1.lastBestScore = -9999 ∧ s1.lastAverageScore = 0 ∧ s1.lastWorstScore = 9999 ∧
    s1.noImprovementOfBestScoreCounter = s.noImprovementOfBestScoreCounter + 1 ∧
    s1.noImprovementOfAverageScoreCounter =
      (if s1.averageScore ≥ 0 then s.noImprovementOfAverageScoreCounter + 1 else 0) ∧
    s1.noImprovementOfWorstScoreCounter =
      (if s1.worstScore ≥ 9999 then s.noImprovementOfWorstScoreCounter + 1 else 0) := by
  unfold Evolve.generation at h
  simp only at h
  split at h
  · exact absurd h (by simp)
  · split at h
    · exact absurd h (by simp)
    · rename_i top htop
      split at h
      · exact absurd h (by simp)
      · rename_i bestScore bestNetwork hbest
        split at h
        · exact absurd h (by simp)
        · split at h
          · exact absurd h (by simp)
          · rename_i k
            have hge : bestScore ≥ (-9999 : float64) := by
              by_cases hv : top.Value > (-9999 : float64)
              · rw [if_pos hv] at hbest
                split at hbest
                · simp only [Except.ok.injEq, Prod.mk.injEq] at hbest
                  rw [← hbest.1]
                  exact float64.le_of_lt' hv
                · exact absurd hbest (by simp)
              · rw [if_neg hv] at hbest
                simp only [Except.ok.injEq, Prod.mk.injEq] at hbest
                rw [← hbest.1]
                exact float64.le_refl' (by decide)
            simp only [Except.ok.injEq] at h
            subst h
            refine ⟨rfl, rfl, rfl, ?_, rfl, rfl⟩
            simp only
            rw [if_pos hge]

/-- After `j` generations without panic the counter of the best score is `j` more than at the
start, whatever the scores were. -/
theorem Evolve.loop_bestCounter (env : Env Net G) (inputData : List (List float64)) (j : Nat)
    (s0 s : Locals Net G) (h : Evolve.loop env inputData j s0 = (none, s)) :
    s.noImprovementOfBestScoreCounter = s0.noImprovementOfBestScoreCounter + (j : Int) := by
  induction j generalizing s0 with
  | zero =>
    simp only [Evolve.loop, Prod.mk.injEq, true_and] at h
    subst h
    simp
  | succ j ih =>
    rw [Evolve.loop] at h
    cases hgen : Evolve.generation env inputData s0 with
    | error msg => rw [hgen] at h; simp at h
    | ok s1 =>
      rw [hgen] at h
      rw [ih s1 h, (Evolve.generation_counters env inputData s0 s1 hgen).2.2.2.1]
      push_cast
      ring

/-- C12: the code at the failing input.  In the example run with three generations the best
score is 1/4, then 1/12, then 1/4, the average 1/15, 1/45, 1/15 and the worst -3/10, -1/10,
-3/10: in the third generation the best and the average score improved and the worst did not.
The counters `Evolve` ends with are 3 for the best score, 3 for the average and 0 for the
worst. -/
theorem Evolve_counters_at_example :
    ((Example.stateAfter 1).bestScore = 1 / 4 ∧ (Example.stateAfter 2).bestScore = 1 / 12 ∧
      (Example.stateAfter 3).bestScore = 1 / 4) ∧
    ((Example.stateAfter 1).averageScore = 1 / 15 ∧
      (Example.stateAfter 2).averageScore = 1 / 45 ∧
      (Example.stateAfter 3).averageScore = 1 / 15) ∧
    ((Example.stateAfter 1).worstScore = -3 / 10 ∧ (Example.stateAfter 2).worstScore = -1 / 10 ∧
      (Example.stateAfter 3).worstScore = -3 / 10) ∧
    (Evolve Example.env Example.configThreeGenerations Example.inputData [1]
      0).2.noImprovementOfBestScoreCounter = 3 ∧
    (Evolve Example.env Example.configThreeGenerations Example.inputData [1]
      0).2.noImprovementOfAverageScoreCounter = 3 ∧
    (Evolve Example.env Example.configThreeGenerations Example.inputData [1]
      0).2.noImprovementOfWorstScoreCounter = 0 ∧
    (Evolve Example.env Example.configThreeGenerations Example.inputData [1] 0).2.bestScore
      = (Example.stateAfter 3).bestScore := by
  decide!

/-- C13: the code at the failing input.  One network, one generation, the pattern `[1]` with
the multiplier `-120000`: the arguments pass validation, the only network scores `-10000`,
which is not above the initial `bestScore` of `-9999`, and `Evolve` ends in the panic
"implementation error: no best network". -/
theorem Evolve_no_best_network_panics :
    1 ≤ Example.configOneNetwork.PopulationSize ∧
    (ScorePopulation Example.env
      (Evolve.populate Example.env { Example.configOneNetwork with Inputs := 1 } 1 0).1
      [[1]] [-120000] 1) = .ok ((ScoreMap.empty.set 0 (-10000), -10000), 2) ∧
    (Evolve Example.env Example.configOneNetwork [[1]] [-120000] 0).1 =
      .panic "implementation error: no best network" := by
  decide!

/-! ## The check of the input indices (C17) -/

/-- The loop over the input indices completes exactly when every index is below the bound. -/
theorem Neuron.checkInputNeurons.loop_ok_iff (n : Nat) (l : List NeuronIndex) :
    Neuron.checkInputNeurons.loop n l = .ok () ↔ ∀ i ∈ l, i < (n : Int) := by
  induction l with
  | nil => simp [Neuron.checkInputNeurons.loop]
  | cons i rest ih =>
    rw [Neuron.checkInputNeurons.loop]
    by_cases hi : i ≥ (n : Int)
    · rw [if_pos hi]
      constructor
      · intro h; exact absurd h (by simp)
      · intro h
        exact absurd (h i (List.mem_cons_self _ _)) (not_lt.2 hi)
    · rw [if_neg hi, ih]
      constructor
      · intro h k hk
        rcases List.mem_cons.1 hk with rfl | hk
        · exact not_le.1 hi
        · exact h k hk
      · intro h k hk
        exact h k (List.mem_cons_of_mem _ hk)

/-- What `Network.checkInputNeurons` checks: it completes exactly when every input index of
every neuron is below the node count.  Nothing is required from below. -/
theorem Network.checkInputNeurons_ok_iff (env : Env Net G) (net : Net) :
    Network.checkInputNeurons env net = .ok () ↔
      ∀ n ∈ env.AllNodes net, ∀ i ∈ n.InputNodes, i < ((env.AllNodes net).length : Int) := by
  unfold Network.checkInputNeurons Network.All
  generalize hown : env.AllNodes net = owner
  have key : ∀ l : List Neuron, Network.checkInputNeurons.loop owner l = .ok () ↔
      ∀ n ∈ l, ∀ i ∈ n.InputNodes, i < (owner.length : Int) := by
    intro l
    induction l with
    | nil => simp [Network.checkInputNeurons.loop]
    | cons n rest ih =>
      rw [Network.checkInputNeurons.loop]
      cases hn : n.checkInputNeurons owner with
      | error msg =>
        simp only [false_iff, reduceCtorEq]
        intro hall
        have := (Neuron.checkInputNeurons.loop_ok_iff owner.length n.InputNodes).2
          (hall n (List.mem_cons_self _ _))
        rw [Neuron.checkInputNeurons] at hn
        rw [hn] at this
        exact absurd this (by simp)
      | ok u =>
        simp only
        rw [ih]
        have hn1 := (Neuron.checkInputNeurons.loop_ok_iff owner.length n.InputNodes).1 hn
        constructor
        · intro h m hm
          rcases List.mem_cons.1 hm with rfl | hm
          · exact hn1
          · exact h m hm
        · intro h m hm
          exact h m (List.mem_cons_of_mem _ hm)
  exact key owner

/-- C17: the code at the failing input.  For a network whose only neuron has the input index
`-1`, which is outside `[0, 1)`, `checkInputNeurons` completes without the out-of-bounds
panic. -/
theorem Network_checkInputNeurons_negative :
    (∃ n ∈ Example.env.AllNodes Example.negativeIndex, ∃ i ∈ n.InputNodes,
      ¬ (0 ≤ i ∧ i < ((Example.env.AllNodes Example.negativeIndex).length : Int))) ∧
    Network.checkInputNeurons Example.env Example.negativeIndex = .ok () := by
  refine ⟨⟨⟨0, [-1]⟩, by decide, -1, by decide, by decide⟩, by decide!⟩

/-! ## Modify (C14-C16) -/

/-- The retry loop of the insert-node method ends within `maxIterations + 1` iterations, after
at most `maxIterations + 1` calls of `InsertNode` on sampled pairs in all (the call before the
loop included). -/
theorem Modify.insertLoop_bound (ops : Mutators Net G) (maxIterations : Int)
    (newNodeIndex : NeuronIndex) (hmax : 0 < maxIterations) (fuel : Nat) (err : Option String)
    (st : Modify.State Net G) (h0 : 0 ≤ st.counter) (hle : st.counter ≤ maxIterations)
    (hfuel : (maxIterations - st.counter).toNat + 1 ≤ fuel)
    (hlen : st.attempts.length = st.counter.toNat + 1) :
    ∃ r, Modify.insertLoop ops maxIterations newNodeIndex fuel err st = some r ∧
      r.1.attempts.length ≤ maxIterations.toNat + 1 := by
  induction fuel generalizing err st with
  | zero => omega
  | succ fuel ih =>
    cases err with
    | none =>
      refine ⟨(st, none), by simp only [Modify.insertLoop], ?_⟩
      simp only
      omega
    | some e =>
      simp only [Modify.insertLoop]
      by_cases hc : maxIterations > 0 ∧ st.counter + 1 > maxIterations
      · rw [if_pos hc]
        refine ⟨_, rfl, ?_⟩
        simp only
        omega
      · rw [if_neg hc]
        have hc1 : st.counter + 1 ≤ maxIterations := by
          by_contra hn
          exact hc ⟨hmax, by omega⟩
        apply ih
        · simp only; omega
        · simp only; omega
        · simp only; omega
        · simp only [List.length_append, List.length_cons, List.length_nil]
          omega

/-- The retry loop of the add-connection method ends within `maxIterations + 1` calls of
`AddConnection`. -/
theorem Modify.connectLoop_bound (ops : Mutators Net G) (maxIterations : Int)
    (hmax : 0 < maxIterations) (fuel : Nat) (nodeA nodeB : NeuronIndex)
    (st : Modify.State Net G) (h0 : 0 ≤ st.counter) (hle : st.counter ≤ maxIterations)
    (hfuel : (maxIterations - st.counter).toNat + 1 ≤ fuel)
    (hlen : st.attempts.length = st.counter.toNat) :
    ∃ r, Modify.connectLoop ops maxIterations fuel nodeA nodeB st = some r ∧
      r.attempts.length ≤ maxIterations.toNat + 1 := by
  induction fuel generalizing nodeA nodeB st with
  | zero => omega
  | succ fuel ih =>
    simp only [Modify.connectLoop]
    cases herr : (ops.AddConnection st.net nodeA nodeB).2 with
    | none =>
      refine ⟨_, rfl, ?_⟩
      simp only [List.length_append, List.length_cons, List.length_nil]
      omega
    | some e =>
      simp only
      by_cases hc : maxIterations > 0 ∧ st.counter + 1 > maxIterations
      · rw [if_pos hc]
        refine ⟨_, rfl, ?_⟩
        simp only [List.length_append, List.length_cons, List.length_nil]
        omega
      · rw [if_neg hc]
        have hc1 : st.counter + 1 ≤ maxIterations := by
          by_contra hn
          exact hc ⟨hmax, by omega⟩
        apply ih
        · simp only; omega
        · simp only; omega
        · simp only; omega
        · simp only [List.length_append, List.length_cons, List.length_nil]
          omega

/-- C14, as stated, fails: with `maxIterations = 1` and sampled pairs that all fail, the
add-connection method calls `AddConnection` on two sampled pairs before it gives up. -/
theorem Modify_two_attempts :
    Modify SpecNetwork.mutators 1 2 Example.sparse Example.drawsConnectFail =
      some (.ok { net := Example.sparse, rng := [], method := 1, newNodeIndex := none,
                  attempts := [⟨0, 0, some "can not connect a node to itself"⟩,
                               ⟨0, 0, some "can not connect a node to itself"⟩],
                  fallback := none }) := by
  decide!

/-- C14, amended: for every network, every state of the random source and every
`maxIterations > 0`, `Modify` terminates (a bound of `maxIterations + 1` iterations on its
retry loops is never reached), and when it returns it has made at most `maxIterations + 1`
calls of `InsertNode` or `AddConnection` on sampled pairs: one before any retry and at most
`maxIterations` retries. -/
theorem Modify_terminates (ops : Mutators Net G) (maxIterations : Int) (fuel : Nat) (net : Net)
    (g : G) (hmax : 0 < maxIterations) (hfuel : maxIterations.toNat + 1 ≤ fuel) :
    ∃ r, Modify ops maxIterations fuel net g = some r ∧
      ∀ m, r = .ok m → (m.attempts.length : Int) ≤ maxIterations + 1 := by
  have hcast : ∀ n : Nat, n ≤ maxIterations.toNat + 1 → (n : Int) ≤ maxIterations + 1 := by
    intro n hn
    omega
  unfold Modify
  simp only
  split
  · split
    · obtain ⟨r, hr, hlen⟩ := Modify.insertLoop_bound ops maxIterations _ hmax fuel _
        { net := _, rng := _, counter := 0, attempts := [_] }
        (le_refl _) (le_of_lt hmax) (by simp only [sub_zero]; omega) rfl
      rw [hr]
      refine ⟨_, rfl, ?_⟩
      intro m hm
      simp only [Except.ok.injEq] at hm
      subst hm
      exact hcast _ hlen
    · exact ⟨_, rfl, fun m hm => by simp at hm⟩
  · obtain ⟨r, hr, hlen⟩ := Modify.connectLoop_bound ops maxIterations hmax fuel _ _
      { net := _, rng := _, counter := 0, attempts := [] }
      (le_refl _) (le_of_lt hmax) (by simp only [sub_zero]; omega) rfl
    rw [hr]
    refine ⟨_, rfl, ?_⟩
    intro m hm
    simp only [Except.ok.injEq] at hm
    subst hm
    exact hcast _ hlen
  · refine ⟨_, rfl, ?_⟩
    intro m hm
    simp only [Except.ok.injEq] at hm
    subst hm
    simp only [List.length_nil, Nat.cast_zero]
    omega
  · exact ⟨_, rfl, fun m hm => by simp at hm⟩

/-- C14 amended, at a concrete input: the insert-node method on `Example.sparse` with
`maxIterations = 1`. -/
theorem Modify_terminates_witness :
    (0 : Int) < 1 ∧
    ∃ r, Modify SpecNetwork.mutators 1 2 Example.sparse Example.drawsInsert = some r ∧
      ∀ m, r = .ok m → (m.attempts.length : Int) ≤ 1 + 1 :=
  ⟨by decide,
    Modify_terminates SpecNetwork.mutators 1 2 Example.sparse Example.drawsInsert
      (by decide) (by decide)⟩

/-- When a failed `AddConnection` leaves the network as it was, the retry loop of the
add-connection method either ends with every call failed and the network it started from, or
ends right after its first successful call, made on the network it started from. -/
theorem Modify.connectLoop_frame (ops : Mutators Net G) (maxIterations : Int)
    (hfail : ∀ n a b msg, (ops.AddConnection n a b).2 = some msg →
      (ops.AddConnection n a b).1 = n)
    (net0 : Net) (fuel : Nat) (nodeA nodeB : NeuronIndex) (st r : Modify.State Net G)
    (hnet : st.net = net0) (hall : ∀ x ∈ st.attempts, x.err ≠ none)
    (h : Modify.connectLoop ops maxIterations fuel nodeA nodeB st = some r) :
    ((∀ x ∈ r.attempts, x.err ≠ none) ∧ r.net = net0) ∨
    (∃ pre a, r.attempts = pre ++ [a] ∧ (∀ x ∈ pre, x.err ≠ none) ∧ a.err = none ∧
      ops.AddConnection net0 a.nodeA a.nodeB = (r.net, none)) := by
  induction fuel generalizing nodeA nodeB st with
  | zero => simp [Modify.connectLoop] at h
  | succ fuel ih =>
    simp only [Modify.connectLoop] at h
    cases herr : (ops.AddConnection st.net nodeA nodeB).2 with
    | none =>
      rw [herr] at h
      simp only [Option.some.injEq] at h
      subst h
      right
      refine ⟨st.attempts, ⟨nodeA, nodeB, none⟩, rfl, hall, rfl, ?_⟩
      simp only
      rw [← hnet, ← herr]
    | some e =>
      rw [herr] at h
      simp only at h
      have hsame := hfail st.net nodeA nodeB e herr
      have hall1 : ∀ x ∈ st.attempts ++ [(⟨nodeA, nodeB, some e⟩ : Attempt)],
          x.err ≠ none := by
        intro x hx
        rcases List.mem_append.1 hx with hx | hx
        · exact hall x hx
        · simp only [List.mem_singleton] at hx
          subst hx
          simp
      split at h
      · simp only [Option.some.injEq] at h
        subst h
        left
        exact ⟨hall1, by simp only; rw [hsame, hnet]⟩
      · exact ih _ _ _ (by simp only; rw [hsame, hnet]) hall1 h

/-- C15: for every network and every `maxIterations > 0`, assuming that a failed
`AddConnection` leaves the network as it was: when `Modify` selects add-connection it returns,
without a call of `InsertNode`; either every call of `AddConnection` failed and the network is
the one `Modify` was called on, or the last call, and only the last, succeeded, and the network
is the result of that one call on the network `Modify` was called on. -/
theorem Modify_add_connection (ops : Mutators Net G) (maxIterations : Int) (fuel : Nat)
    (net : Net) (g : G) (hmax : 0 < maxIterations) (hfuel : maxIterations.toNat + 1 ≤ fuel)
    (hmethod : (ops.Intn 3 g).1 = 1)
    (hfail : ∀ n a b msg, (ops.AddConnection n a b).2 = some msg →
      (ops.AddConnection n a b).1 = n) :
    ∃ m, Modify ops maxIterations fuel net g = some (.ok m) ∧ m.fallback = none ∧
      (((∀ x ∈ m.attempts, x.err ≠ none) ∧ m.net = net) ∨
       (∃ pre a, m.attempts = pre ++ [a] ∧ (∀ x ∈ pre, x.err ≠ none) ∧ a.err = none ∧
          ops.AddConnection net a.nodeA a.nodeB = (m.net, none))) := by
  obtain ⟨r, hr, _⟩ := Modify.connectLoop_bound ops maxIterations hmax fuel
    (ops.GetRandomNode net (ops.Intn 3 g).2).1
    (ops.GetRandomNode net (ops.GetRandomNode net (ops.Intn 3 g).2).2).1
    { net := net, rng := (ops.GetRandomNode net (ops.GetRandomNode net (ops.Intn 3 g).2).2).2,
      counter := 0, attempts := [] }
    (le_refl _) (le_of_lt hmax) (by simp only [sub_zero]; omega) rfl
  have hframe := Modify.connectLoop_frame ops maxIterations hfail net fuel _ _ _ r rfl
    (by simp) hr
  refine ⟨{ net := r.net, rng := r.rng, method := 1, newNodeIndex := none,
            attempts := r.attempts, fallback := none }, ?_, rfl, hframe⟩
  unfold Modify
  simp only [hmethod]
  rw [hr]

/-- A failed `AddConnection` of the graph model of the spec leaves the network as it was. -/
theorem SpecNetwork.AddConnection_failed (n : SpecNetwork) (a b : NeuronIndex) (msg : String)
    (h : (SpecNetwork.mutators.AddConnection n a b).2 = some msg) :
    (SpecNetwork.mutators.AddConnection n a b).1 = n := by
  simp only [SpecNetwork.mutators, SpecNetwork.AddConnection] at h ⊢
  split
  · rfl
  · split
    · rfl
    · split
      · rfl
      · split
        · rfl
        · split
          · rfl
          · rename_i h1 h2 h3 h4 h5
            rw [if_neg h1, if_neg h2, if_neg h3, if_neg h4, if_neg h5] at h
            simp at h

/-- C15, at concrete inputs on `Example.sparse` with `maxIterations = 1`: in one run the pair
`(0, 0)` fails and the pair `(1, 2)` succeeds, the edge from 1 to 2 being added; in the other
both pairs fail and the network is unchanged. -/
theorem Modify_add_connection_witness :
    (∃ m, Modify SpecNetwork.mutators 1 2 Example.sparse Example.drawsConnect = some (.ok m) ∧
      m.fallback = none ∧
      (((∀ x ∈ m.attempts, x.err ≠ none) ∧ m.net = Example.sparse) ∨
       (∃ pre a, m.attempts = pre ++ [a] ∧ (∀ x ∈ pre, x.err ≠ none) ∧ a.err = none ∧
          SpecNetwork.mutators.AddConnection Example.sparse a.nodeA a.nodeB = (m.net, none)))) ∧
    Modify SpecNetwork.mutators 1 2 Example.sparse Example.drawsConnect =
      some (.ok { net := { Example.sparse with AllNodes := [⟨0, []⟩, ⟨1, []⟩, ⟨2, [0, 1]⟩] },
                  rng := [], method := 1, newNodeIndex := none,
                  attempts := [⟨0, 0, some "can not connect a node to itself"⟩, ⟨1, 2, none⟩],
                  fallback := none }) :=
  ⟨Modify_add_connection SpecNetwork.mutators 1 2 Example.sparse Example.drawsConnect
      (by decide) (by decide) (by decide) SpecNetwork.AddConnection_failed,
    by decide!⟩

/-- C16: the code at the failing input, with `InsertNode` and `NewNeuron` as the spec describes
them.  On `Example.sparse`, where the input neuron 1 does not feed the output neuron 2, with
`maxIterations = 1`: the sampled pairs fail, the last-ditch call `InsertNode(1, 2, 3)` fails
too, its error is dropped and `Modify` returns.  The neuron 3 that `NewNeuron` added has no
input and feeds no neuron. -/
theorem Modify_new_neuron_unconnected :
    0 < Example.sparse.Inputs ∧
    Modify SpecNetwork.mutators 1 2 Example.sparse Example.drawsInsert =
      some (.ok { net := { Example.sparse with
                    AllNodes := [⟨0, []⟩, ⟨1, []⟩, ⟨2, [0]⟩, ⟨3, []⟩],
                    ActivationFunctions := [0, 0, 0, 0] },
                  rng := [], method := 0, newNodeIndex := some 3,
                  attempts := [⟨1, 2, some "there is no edge between the two nodes"⟩,
                               ⟨1, 2, some "there is no edge between the two nodes"⟩],
                  fallback := some ⟨1, 2, some "there is no edge between the two nodes"⟩ }) := by
  decide!

end Wann
